import Mathlib

/-!
Verification of the DenoGemini proxy against its specification.

The development shallowly embeds the proxy's core algorithms over `List Char`
strings and plain inductive data:

* `ImgCache`  — `src/services/imageCache.ts` (resource cache, base64 keys);
* `Client`    — `src/services/geminiClient.ts` (credential failover/retry);
* `SSE`       — the stream reassembler `createGeminiToOpenAISSEStream`;
* `GtoO`      — the response transformer `transformCandidateToChoice` of
  `src/transformers/geminiToOpenAI.ts`;
* `OtoG`      — the request transformer `transformOpenAIRequestToGemini`.

JavaScript strings are modelled as `List Char` (code points; all texts in
play are in the basic multilingual plane, where JS `length` agrees).
External library calls with no algorithmic content in this repository
(`JSON.parse`, `crypto.randomUUID`) are universally quantified parameters.
-/
/-- JS whitespace class (`\s`, also what `String.prototype.trim` removes). -/
def isJsWs (c : Char) : Bool :=
  c = ' ' || c = '\t' || c = '\n' || c = '\r' || c = '\x0b' || c = '\x0c' ||
  c = '\u00A0' || c = '\uFEFF' || c = '\u1680' ||
  ('\u2000' ≤ c && c ≤ '\u200A') ||
  c = '\u2028' || c = '\u2029' || c = '\u202F' || c = '\u205F' || c = '\u3000'

/-- JS `String.prototype.trim`. -/
def jsTrim (s : List Char) : List Char :=
  ((s.dropWhile isJsWs).reverse.dropWhile isJsWs).reverse

/-- A Lean string literal as the `List Char` the embedding works over. -/
def cs (s : String) : List Char := s.toList

/-- JS `a.includes(b)`: substring test. -/
def containsSub : List Char → List Char → Bool
  | [], needle => needle.isEmpty
  | c :: t, needle => needle.isPrefixOf (c :: t) || containsSub t needle

/-- First occurrence of `needle` in `s`; returns the tail after the occurrence. -/
def findSubTail : List Char → List Char → Option (List Char)
  | [], needle => if needle.isEmpty then some [] else none
  | c :: t, needle =>
    if needle.isPrefixOf (c :: t) then some ((c :: t).drop needle.length)
    else findSubTail t needle

/-- JS `s.split('\n')`: always at least one piece; pieces hold no `'\n'`. -/
def splitNl : List Char → List (List Char)
  | [] => [[]]
  | c :: s =>
    match splitNl s with
    | [] => [[]]
    | l :: ls => if c = '\n' then [] :: l :: ls else (c :: l) :: ls

/-- JS `Array.prototype.join('\n')`. -/
def joinNl (ls : List (List Char)) : List Char :=
  match ls with
  | [] => []
  | [l] => l
  | l :: ls => l ++ '\n' :: joinNl ls

namespace ImgCache

/-! ## `src/services/imageCache.ts`

The cache key is `btoa(url).slice(0, 32)`; `btoa` encodes the URL's
code points as latin-1 bytes (defined when every code point is < 256). -/
/-- The base64 alphabet. -/
def b64Tbl (n : Nat) : Char :=
  (cs "ABCDEFGHIJKLMNOPQRSTUVWXYZabcdefghijklmnopqrstuvwxyz0123456789+/").getD n 'A'

/-- Standard base64 of a byte list, with `=` padding (JS `btoa`). -/
def b64 : List Nat → List Char
  | [] => []
  | [a] => [b64Tbl (a / 4), b64Tbl (a % 4 * 16), '=', '=']
  | [a, b] => [b64Tbl (a / 4), b64Tbl (a % 4 * 16 + b / 16), b64Tbl (b % 16 * 4), '=']
  | a :: b :: c :: rest =>
    b64Tbl (a / 4) :: b64Tbl (a % 4 * 16 + b / 16) ::
      b64Tbl (b % 16 * 4 + c / 64) :: b64Tbl (c % 64) :: b64 rest

/-- `ImageCache.getCacheKey`: `btoa(url).slice(0, 32)`. -/
def getCacheKey (url : List Char) : List Char :=
  (b64 (url.map Char.toNat)).take 32

structure CacheEntry where
  data : List Char
  mimeType : List Char
  timestamp : Nat
  size : Nat
  deriving DecidableEq, Repr

/-- The JS `Map` backing the cache: insertion-ordered association list. -/
abbrev CacheMap := List (List Char × CacheEntry)

def mapGet (m : CacheMap) (k : List Char) : Option CacheEntry :=
  (m.find? (fun p => p.1 = k)).map (·.2)

/-- JS `Map.set`: replaces in place when the key exists, else appends. -/
def mapSet (m : CacheMap) (k : List Char) (v : CacheEntry) : CacheMap :=
  if m.any (fun p => p.1 = k) then
    m.map (fun p => if p.1 = k then (k, v) else p)
  else m ++ [(k, v)]

def mapDelete (m : CacheMap) (k : List Char) : CacheMap :=
  m.filter (fun p => ¬ p.1 = k)

def CACHE_TTL : Nat := 30 * 60 * 1000

def MAX_CACHE_SIZE : Nat := 50

/-- `ImageCache.evictOldest` at wall-clock `now` (`oldestTime` starts at
`Date.now()`, the comparison is strict, an empty `oldestKey` deletes nothing). -/
def evictOldest (m : CacheMap) (now : Nat) : CacheMap :=
  let pick := m.foldl
    (fun (acc : List Char × Nat) p =>
      if p.2.timestamp < acc.2 then (p.1, p.2.timestamp) else acc)
    ([], now)
  if pick.1 = [] then m else mapDelete m pick.1

/-- `ImageCache.set` at wall-clock `now`. -/
def cacheSet (m : CacheMap) (now : Nat) (url data mimeType : List Char)
    (size : Nat) : CacheMap :=
  let m1 := if MAX_CACHE_SIZE ≤ m.length then evictOldest m now else m
  mapSet m1 (getCacheKey url) ⟨data, mimeType, now, size⟩

/-- `ImageCache.get` at wall-clock `now`: the returned payload (if any) and
the cache state after the call (an expired entry is deleted). -/
def cacheGet (m : CacheMap) (now : Nat) (url : List Char) :
    Option (List Char × List Char) × CacheMap :=
  match mapGet m (getCacheKey url) with
  | none => (none, m)
  | some e =>
    if CACHE_TTL < now - e.timestamp then (none, mapDelete m (getCacheKey url))
    else (some (e.data, e.mimeType), m)

end ImgCache

namespace Client

/-! ## `src/services/geminiClient.ts` — `GeminiClient.makeRequest`

The outcome of each `fetch` attempt is a parameter `backend : Nat →
FetchOutcome` (index = `retryCount`); `Math.random() * 1000` at attempt `i`
is the parameter `jitter i`. Delays are recorded on the trace. -/
/-- What one `fetch` attempt yields: an HTTP response with a status, an
abort (timeout) error, or another network-level error. -/
inductive FetchOutcome where
  | resp (status : Nat)
  | abortTimeout
  | netErr
  deriving DecidableEq, Repr

/-- How `makeRequest` ends: a returned `Response`, or a thrown error. -/
inductive MRFinal where
  | response (status : Nat) (keyIdx : Nat)
  | thrownRetriesExceeded
  | thrownTimeout
  | thrownNet
  deriving DecidableEq, Repr

/-- The trace of one `makeRequest` call tree: final outcome, the credential
index used by each attempted call (in order), and the backoff delays waited
between consecutive attempts. -/
structure MRTrace where
  final : MRFinal
  keysUsed : List Nat
  delays : List ℚ
  deriving DecidableEq, Repr

/-- `Math.min(Math.pow(2, retryCount) * 1000 + Math.random() * 1000, 10000)`. -/
def backoffDelay (jitter : Nat → ℚ) (attempt : Nat) : ℚ :=
  min (2 ^ attempt * 1000 + jitter attempt) 10000

/-- The body of `makeRequest`, recursion depth bounded by `fuel`
(the recursion increments `retryCount` and stops once
`retryCount >= maxRetries`, so `fuel = maxRetries` at entry suffices). -/
def makeRequestGo (backend : Nat → FetchOutcome) (jitter : Nat → ℚ)
    (maxRetries : Nat) : Nat → Nat → MRTrace
  | 0, _ => ⟨.thrownRetriesExceeded, [], []⟩
  | fuel + 1, retryCount =>
    if maxRetries ≤ retryCount then ⟨.thrownRetriesExceeded, [], []⟩
    else
      match backend retryCount with
      | .resp s =>
        if (s = 429 ∨ 500 ≤ s) ∧ retryCount < maxRetries - 1 then
          let t := makeRequestGo backend jitter maxRetries fuel (retryCount + 1)
          ⟨t.final, retryCount :: t.keysUsed, backoffDelay jitter retryCount :: t.delays⟩
        else ⟨.response s retryCount, [retryCount], []⟩
      | .abortTimeout => ⟨.thrownTimeout, [retryCount], []⟩
      | .netErr =>
        if retryCount < maxRetries - 1 then
          let t := makeRequestGo backend jitter maxRetries fuel (retryCount + 1)
          ⟨t.final, retryCount :: t.keysUsed, backoffDelay jitter retryCount :: t.delays⟩
        else ⟨.thrownNet, [retryCount], []⟩

/-- `GeminiClient.makeRequest` from `retryCount = 0`, where `maxRetries =
Math.min(config.maxRetries, configManager.getApiKeyCount())`. -/
def makeRequest (backend : Nat → FetchOutcome) (jitter : Nat → ℚ)
    (maxRetries : Nat) : MRTrace :=
  makeRequestGo backend jitter maxRetries maxRetries 0

/-- How `generateContent` disposes of `makeRequest`'s outcome: a thrown error
propagates; a returned response with `!response.ok` is thrown as an upstream
error; only a 2xx response yields a result. -/
def surfacesError (t : MRTrace) : Bool :=
  match t.final with
  | .response s _ => ¬ (200 ≤ s ∧ s ≤ 299)
  | _ => true

/-- The backend of the claim's scenario: 429 on attempts `0 .. N-2`,
success (200) from attempt `N-1` on. -/
def backend429 (N : Nat) : Nat → FetchOutcome :=
  fun i => if i < N - 1 then .resp 429 else .resp 200

end Client

/-! ## Shared backend response data model (`src/types/gemini.ts`) -/
/-- A function call carried by a backend part; `argsJson` stands for the
JSON serialization `JSON.stringify(args || \x7b\x7d)` of its arguments. -/
structure FunctionCall where
  name : List Char
  argsJson : List Char
  deriving DecidableEq, Repr

/-- A backend content part: optional text (empty = absent/falsy), the
official `thought` flag, optional function call. -/
structure GeminiPart where
  text : List Char := []
  thought : Bool := false
  functionCall : Option FunctionCall := none
  deriving DecidableEq, Repr

structure GeminiContent where
  role : List Char := []
  parts : List GeminiPart := []
  deriving DecidableEq, Repr

inductive FinishReason where
  | STOP
  | MAX_TOKENS
  | SAFETY
  | RECITATION
  | OTHER
  | BLOCKLIST
  | PROHIBITED_CONTENT
  | SPII
  | MALFORMED_FUNCTION_CALL
  deriving DecidableEq, Repr

structure GeminiCandidate where
  content : Option GeminiContent := none
  finishReason : Option FinishReason := none
  deriving DecidableEq, Repr

structure UsageMetadata where
  promptTokenCount : Option Nat := none
  candidatesTokenCount : Option Nat := none
  totalTokenCount : Option Nat := none
  thoughtsTokenCount : Option Nat := none
  deriving DecidableEq, Repr

/-- A backend response or stream chunk; an absent `candidates` array is
modelled as `[]` (the code only tests `candidates && candidates.length > 0`). -/
structure GeminiResponse where
  candidates : List GeminiCandidate := []
  usageMetadata : Option UsageMetadata := none
  deriving DecidableEq, Repr

namespace SSE

/-! ## `createGeminiToOpenAISSEStream` (stream reassembler)

The upstream byte stream is modelled at character granularity (the
`TextDecoder` with `stream: true` makes byte-level splits inside a code
point equivalent to character splits). `JSON.parse` and
`crypto.randomUUID` are the parameters `parse` and `uuid` (`uuid n` is the
n-th identifier drawn). Emitted SSE frames are modelled as `SSEEvent`s:
the terminal `data: [DONE]` marker, or one client-shaped chunk. -/
structure ToolFn where
  name : List Char
  arguments : List Char
  deriving DecidableEq, Repr

/-- A `ToolCallDelta`; its `type` field is constantly `"function"` (omitted). -/
structure ToolCallDelta where
  index : Nat
  id : List Char
  fn : ToolFn
  deriving DecidableEq, Repr

structure Delta where
  role : Option (List Char) := none
  content : Option (List Char) := none
  tool_calls : Option (List ToolCallDelta) := none
  deriving DecidableEq, Repr

structure StreamChoice where
  index : Nat
  delta : Delta
  finish_reason : Option (List Char)
  deriving DecidableEq, Repr

/-- A client-shaped stream chunk; `object` is constantly
`"chat.completion.chunk"` and `created` is wall-clock time (not modelled). -/
structure StreamChunk where
  id : List Char
  model : List Char
  choices : List StreamChoice
  deriving DecidableEq, Repr

inductive SSEEvent where
  | done
  | chunk (c : StreamChunk)
  deriving DecidableEq, Repr

/-- The streaming `mapFinishReasonToOpenAI` (absent reason maps to `null`). -/
def mapFinishReasonStream : Option FinishReason → Option (List Char)
  | none => none
  | some .STOP => some (cs "stop")
  | some .MAX_TOKENS => some (cs "length")
  | some .SAFETY => some (cs "content_filter")
  | some .RECITATION => some (cs "content_filter")
  | some .BLOCKLIST => some (cs "content_filter")
  | some .PROHIBITED_CONTENT => some (cs "content_filter")
  | some .SPII => some (cs "content_filter")
  | some .MALFORMED_FUNCTION_CALL => some (cs "tool_calls")
  | some .OTHER => some (cs "stop")

/-- `p.text || p.functionCall` (the role-delta condition). -/
def partHasPayload (p : GeminiPart) : Bool :=
  !p.text.isEmpty || p.functionCall.isSome

/-- The per-part loop body of `transformGeminiChunkToOpenAI`: a text part
overwrites `delta.content`; a function-call part is appended to the delta
and to the stream-global `currentToolCalls` map with
`index = currentToolCalls.size` and a fresh id. -/
def processPart (uuid : Nat → List Char) (st : Delta × List ToolCallDelta)
    (p : GeminiPart) : Delta × List ToolCallDelta :=
  let d := if p.text.isEmpty then st.1 else { st.1 with content := some p.text }
  match p.functionCall with
  | none => (d, st.2)
  | some fc =>
    let tcd : ToolCallDelta :=
      ⟨st.2.length, cs "call_" ++ uuid st.2.length, ⟨fc.name, fc.argsJson⟩⟩
    ({ d with tool_calls := some (d.tool_calls.getD [] ++ [tcd]) }, st.2 ++ [tcd])

/-- The delta of one candidate (`roleSent` is the value at function entry). -/
def candidateDelta (uuid : Nat → List Char) (roleSent : Bool)
    (tcs : List ToolCallDelta) (cand : GeminiCandidate) :
    Delta × List ToolCallDelta :=
  let parts := (cand.content.map (·.parts)).getD []
  let d0 : Delta :=
    { role := if !roleSent && parts.any partHasPayload then some (cs "assistant")
      else none }
  parts.foldl (processPart uuid) (d0, tcs)

/-- `transformGeminiChunkToOpenAI`: one client chunk per candidate, plus the
updated `currentToolCalls` state. -/
def transformGeminiChunkToOpenAI (uuid : Nat → List Char)
    (requestId modelName : List Char) (g : GeminiResponse) (roleSent : Bool)
    (tcs : List ToolCallDelta) : List StreamChunk × List ToolCallDelta :=
  if g.candidates.isEmpty then ([], tcs)
  else
    let step := fun (acc : List StreamChunk × List ToolCallDelta × Nat)
        (cand : GeminiCandidate) =>
      let (d, tcs') := candidateDelta uuid roleSent acc.2.1 cand
      let choice : StreamChoice := ⟨acc.2.2, d, mapFinishReasonStream cand.finishReason⟩
      (acc.1 ++ [⟨requestId, modelName, [choice]⟩], tcs', acc.2.2 + 1)
    let r := g.candidates.foldl step ([], tcs, 0)
    (r.1, r.2.1)

/-- The transformer state carried across input chunks: the unterminated
line fragment, the role-sent flag and the tool-call map. -/
structure SSEState where
  buffer : List Char
  roleSent : Bool
  toolCalls : List ToolCallDelta
  deriving DecidableEq, Repr

section

variable (parse : List Char → Option GeminiResponse) (uuid : Nat → List Char)
variable (requestId modelName : List Char)

/-- Handling of one completed input line (the body of the `for` loop of the
`transform` callback): SSE `data:` lines are parsed (a literal `[DONE]`
payload is forwarded), bare `\x7b...\x7d` lines are tried as direct JSON,
anything unparsable is skipped. -/
def processLine (roleSent : Bool) (tcs : List ToolCallDelta) (line : List Char) :
    List SSEEvent × Bool × List ToolCallDelta :=
  let t := jsTrim line
  if t.isEmpty then ([], roleSent, tcs)
  else if (cs "data: ").isPrefixOf t then
    let j := t.drop 6
    if j = cs "[DONE]" then ([.done], roleSent, tcs)
    else
      match parse j with
      | some g =>
        let (chunks, tcs') :=
          transformGeminiChunkToOpenAI uuid requestId modelName g roleSent tcs
        (chunks.map .chunk, roleSent || !chunks.isEmpty, tcs')
      | none => ([], roleSent, tcs)
  else if t.head? == some '\x7b' && t.getLast? == some '\x7d' then
    match parse t with
    | some g =>
      let (chunks, tcs') :=
        transformGeminiChunkToOpenAI uuid requestId modelName g roleSent tcs
      (chunks.map .chunk, roleSent || !chunks.isEmpty, tcs')
    | none => ([], roleSent, tcs)
  else ([], roleSent, tcs)

/-- The `for` loop over the completed lines of one input chunk. -/
def processLines (st : Bool × List ToolCallDelta) :
    List (List Char) → List SSEEvent × (Bool × List ToolCallDelta)
  | [] => ([], st)
  | l :: ls =>
    let (e, r, t) := processLine parse uuid requestId modelName st.1 st.2 l
    let (es, st2) := processLines (r, t) ls
    (e ++ es, st2)


/-- `buffer.split('\n')` with the trailing fragment popped off: the pair
(completed lines, fragment kept in the buffer). -/
def splitNlP : List Char → List (List Char) × List Char
  | [] => ([], [])
  | c :: s =>
    let p := splitNlP s
    if c = '\n' then ([] :: p.1, p.2)
    else
      match p.1 with
      | [] => ([], c :: p.2)
      | h :: t => ((c :: h) :: t, p.2)

/-- The `transform` callback for one input chunk: append to the buffer,
split off completed lines, process them, keep the fragment. -/
def feedChunk (st : SSEState) (chunk : List Char) : SSEState × List SSEEvent :=
  let p := splitNlP (st.buffer ++ chunk)
  let (evs, st2) :=
    processLines parse uuid requestId modelName (st.roleSent, st.toolCalls) p.1
  (⟨p.2, st2.1, st2.2⟩, evs)

/-- The `flush` callback: one final parse attempt on the trimmed leftover
buffer, then the terminal marker, emitted unconditionally. -/
def flushState (st : SSEState) : List SSEEvent :=
  let t := jsTrim st.buffer
  let evs :=
    if !t.isEmpty && t != cs "]" && t != cs "[" && decide (2 < t.length) then
      match parse t with
      | some g =>
        ((transformGeminiChunkToOpenAI uuid requestId modelName g st.roleSent
          st.toolCalls).1).map .chunk
      | none => []
    else []
  evs ++ [.done]

def initState : SSEState := ⟨[], false, []⟩

/-- Feeding a sequence of input chunks through the transform. -/
def runFeeds (st : SSEState) : List (List Char) → SSEState × List SSEEvent
  | [] => (st, [])
  | c :: rest =>
    let (st1, e1) := feedChunk parse uuid requestId modelName st c
    let (st2, e2) := runFeeds st1 rest
    (st2, e1 ++ e2)

/-- `createGeminiToOpenAISSEStream`: the full event sequence the client sees
for a chunked upstream input, flush included. -/
def runStream (chunks : List (List Char)) : List SSEEvent :=
  let (st, evs) := runFeeds parse uuid requestId modelName initState chunks
  evs ++ flushState parse uuid requestId modelName st

end

/-- Gluing two `splitNlP` results across a chunk boundary: the left trailing
fragment joins the first line completed on the right. -/
def mergeSplit (px py : List (List Char) × List Char) :
    List (List Char) × List Char :=
  match py.1 with
  | [] => (px.1, px.2 ++ py.2)
  | h :: t => (px.1 ++ (px.2 ++ h) :: t, py.2)

def isDoneEv : SSEEvent → Bool
  | .done => true
  | .chunk _ => false

/-- A completed input line carrying the upstream terminal signal
(`trimmedLine.startsWith('data: ')` and `slice(6) === '[DONE]'`). -/
def isDoneLine (l : List Char) : Bool :=
  (cs "data: ").isPrefixOf (jsTrim l) && (jsTrim l).drop 6 == cs "[DONE]"

/-- Reads the index of the single tool-call delta of a transform result. -/
def firstToolIndex (r : List StreamChunk × List ToolCallDelta) : Option Nat :=
  match r.1 with
  | [ck] =>
    match ck.choices with
    | [ch] => ((ch.delta.tool_calls.getD []).head?).map (·.index)
    | _ => none
  | _ => none

end SSE

namespace OtoG

/-! ## `transformOpenAIRequestToGemini` (request transformer, part_004)

The client request model mirrors `src/types/openai.ts`. `JSON.parse` of a
tool call's argument string is the parameter `jsonOk` (parts are dropped
when it fails). JS regexes are modelled by ordered-literal scanners: a
pattern `/a.*b.*c/` holds iff some line-terminator-free span contains the
literals in order (`.` matches no line terminator and the literals contain
none, so every match lies inside one such span). -/
inductive CPart where
  | text (t : List Char)
  | imageUrl (url : List Char)
  | other
  deriving DecidableEq, Repr

inductive MsgContent where
  | nullc
  | str (s : List Char)
  | arr (ps : List CPart)
  deriving DecidableEq, Repr

inductive Role where
  | system
  | user
  | assistant
  | tool
  deriving DecidableEq, Repr

structure ToolCallIn where
  isFunction : Bool
  name : List Char
  arguments : List Char
  deriving DecidableEq, Repr

structure OpenAIMessage where
  role : Role
  content : MsgContent := .nullc
  tool_calls : List ToolCallIn := []
  tool_call_id : List Char := []
  deriving DecidableEq, Repr

structure OpenAIToolIn where
  isFunction : Bool
  name : List Char
  description : Option (List Char) := none
  params : Option (List Char) := none
  deriving DecidableEq, Repr

inductive ToolChoiceIn where
  | str (s : List Char)
  | fnChoice (name : List Char)
  deriving DecidableEq, Repr

inductive StopIn where
  | absent
  | one (s : List Char)
  | many (ss : List (List Char))
  deriving DecidableEq, Repr

structure OpenAIRequest where
  model : List Char
  messages : List OpenAIMessage
  temperature : Option ℚ := none
  top_p : Option ℚ := none
  max_tokens : Option Nat := none
  stop : StopIn := .absent
  tools : List OpenAIToolIn := []
  tool_choice : Option ToolChoiceIn := none
  response_format : Option (List Char) := none
  enable_thinking : Option Bool := none
  deriving DecidableEq, Repr

structure ThinkingConfig where
  includeThoughts : Bool
  thinkingBudget : Option Nat := none
  deriving DecidableEq, Repr

structure GenConfig where
  temperature : Option ℚ := none
  topP : Option ℚ := none
  maxOutputTokens : Option Nat := none
  stopSequences : Option (List (List Char)) := none
  responseMimeType : Option (List Char) := none
  thinkingConfig : Option ThinkingConfig := none
  deriving DecidableEq, Repr

inductive GePart where
  | text (t : List Char)
  | inlineData (mimeType : List Char) (data : List Char)
  | functionCall (name : List Char) (argsJson : List Char)
  | functionResponse (name : List Char) (response : MsgContent)
  deriving DecidableEq, Repr

structure GeContent where
  role : List Char
  parts : List GePart
  deriving DecidableEq, Repr

structure FnDecl where
  name : List Char
  description : Option (List Char)
  params : Option (List Char)
  deriving DecidableEq, Repr

structure GeToolConfig where
  mode : List Char
  allowedFunctionNames : Option (List (List Char)) := none
  deriving DecidableEq, Repr

/-- The produced upstream request. `tools` models the single wrapper object
`[ { functionDeclarations } ]`; `generationConfig` is always assigned. -/
structure GeRequest where
  contents : List GeContent
  systemInstruction : Option GeContent := none
  tools : Option (List FnDecl) := none
  toolConfig : Option GeToolConfig := none
  generationConfig : GenConfig := {}
  deriving DecidableEq, Repr

/-- ASCII lowering (`String.prototype.toLowerCase` on the texts in play). -/
def lowChar (c : Char) : Char :=
  if 'A' ≤ c ∧ c ≤ 'Z' then Char.ofNat (c.toNat + 32) else c

def lowStr (s : List Char) : List Char := s.map lowChar

/-- JS regex line terminators (what `.` does not match). -/
def isLineTerm (c : Char) : Bool :=
  c = '\n' || c = '\r' || c = ' ' || c = ' '

/-- Splitting on a character class, `splitNl`-style. -/
def splitOnP (p : Char → Bool) : List Char → List (List Char)
  | [] => [[]]
  | c :: s =>
    match splitOnP p s with
    | [] => [[]]
    | l :: ls => if p c then [] :: l :: ls else (c :: l) :: ls

/-- Ordered occurrence of the literals (left-to-right, non-overlapping). -/
def seqMatch : List (List Char) → List Char → Bool
  | [], _ => true
  | lit :: rest, s =>
    match findSubTail s lit with
    | some tail => seqMatch rest tail
    | none => false

/-- `/lit₁.*lit₂.*…/.test(s)` (no `s` flag): the literals appear in order
within one line-terminator-free span. -/
def dotStarTest (lits : List (List Char)) (s : List Char) : Bool :=
  (splitOnP isLineTerm s).any (seqMatch lits)

def jsonFormatKeywords : List (List Char) :=
  [cs "json格式", cs "json对象", cs "JSON格式", cs "JSON对象",
   cs "返回json", cs "输出json", cs "返回JSON", cs "输出JSON",
   cs "请用json", cs "请用JSON", cs "用json", cs "用JSON",
   cs "json格式回答", cs "JSON格式回答",
   cs "json格式输出", cs "JSON格式输出",
   cs "json回复", cs "JSON回复",
   cs "json响应", cs "JSON响应",
   cs "json结果", cs "JSON结果",
   cs "json数据", cs "JSON数据",
   cs "json形式", cs "JSON形式",
   cs "json方式", cs "JSON方式"]

def jsonRequestPatterns : List (List (List Char)) :=
  [[cs "请", cs "用", cs "json", cs "格式"],
   [cs "请", cs "返回", cs "json"],
   [cs "输出", cs "json", cs "格式"],
   [cs "json", cs "格式", cs "返回"],
   [cs "以", cs "json", cs "格式"],
   [cs "转换", cs "json"],
   [cs "生成", cs "json"],
   [cs "创建", cs "json"],
   [cs "提供", cs "json"],
   [cs "给出", cs "json"],
   [cs "json", cs "示例"],
   [cs "json", cs "模板"],
   [cs "json", cs "结构"]]

def jsonExamplePatterns : List (List (List Char)) :=
  [[cs "示例", cs "\x7b", cs "\"", cs "\"", cs ":", cs "\"", cs "\"", cs "\x7d"],
   [cs "例如", cs "\x7b", cs "\"", cs "\"", cs ":", cs "\"", cs "\"", cs "\x7d"],
   [cs "格式", cs "\x7b", cs "\"", cs "\"", cs ":", cs "\"", cs "\"", cs "\x7d"],
   [cs "如下", cs "\x7b", cs "\"", cs "\"", cs ":", cs "\"", cs "\"", cs "\x7d"],
   [cs "类似", cs "\x7b", cs "\"", cs "\"", cs ":", cs "\"", cs "\"", cs "\x7d"]]

def jsonFieldPatterns : List (List (List Char)) :=
  [[cs "\"name\"", cs ":", cs "\"", cs "\""],
   [cs "\"nickname\"", cs ":", cs "\"", cs "\""],
   [cs "\"reason\"", cs ":", cs "\"", cs "\""],
   [cs "\"description\"", cs ":", cs "\"", cs "\""],
   [cs "\"title\"", cs ":", cs "\"", cs "\""],
   [cs "\"content\"", cs ":", cs "\"", cs "\""],
   [cs "\"response\"", cs ":", cs "\"", cs "\""],
   [cs "\"result\"", cs ":", cs "\"", cs "\""]]

def analysisKeywords : List (List Char) :=
  [cs "分析", cs "解析", cs "理解", cs "说明", cs "解释"]

/-- One text's checks inside `isJsonContentRequest` (the early returns of the
source collapse to this disjunction). -/
def contentTriggersJson (content : List Char) : Bool :=
  jsonFormatKeywords.any (fun kw => containsSub (lowStr content) (lowStr kw)) ||
  jsonRequestPatterns.any (fun p => dotStarTest (p.map lowStr) (lowStr content)) ||
  jsonExamplePatterns.any (fun p => dotStarTest p content) ||
  (jsonFieldPatterns.any (fun p => dotStarTest (p.map lowStr) (lowStr content)) &&
    !(analysisKeywords.any (fun kw => containsSub content kw)))

/-- `isJsonContentRequest` (part_004 request transformer version). -/
def isJsonContentRequest (messages : List OpenAIMessage) : Bool :=
  messages.any fun m =>
    match m.content with
    | .str c => contentTriggersJson c
    | .arr ps =>
      ps.any fun p =>
        match p with
        | .text t => !t.isEmpty && contentTriggersJson t
        | _ => false
    | .nullc => false

def isB64Char (c : Char) : Bool :=
  ('A' ≤ c && c ≤ 'Z') || ('a' ≤ c && c ≤ 'z') || ('0' ≤ c && c ≤ '9') ||
  c = '+' || c = '/'

/-- JS `atob` acceptance: the WHATWG forgiving-base64 decoder succeeds. -/
def atobOk (s : List Char) : Bool :=
  let t := s.filter
    (fun c => !(c = ' ' || c = '\t' || c = '\n' || c = '\x0c' || c = '\r'))
  let t1 :=
    if t.length % 4 = 0 then
      let t' := if t.getLast? = some '=' then t.dropLast else t
      if t'.getLast? = some '=' then t'.dropLast else t'
    else t
  if t1.length % 4 = 1 then false else t1.all isB64Char

/-- `s.split(',')`. -/
def splitComma (s : List Char) : List (List Char) := splitOnP (fun c => c = ',') s

/-- `header.match(/^data:([^;]+)/)`: the MIME group. -/
def parseMime (header : List Char) : Option (List Char) :=
  if (cs "data:").isPrefixOf header then
    let g := (header.drop 5).takeWhile (fun c => ¬ c = ';')
    if g.isEmpty then none else some g
  else none

def unsupportedFormats : List (List Char) :=
  [cs "image/webp", cs "image/bmp", cs "image/tiff"]

/-- `convertDataUriToInlineData` (part_004 request transformer version); it
catches its own throws, so any validation failure yields `null`. Byte sizes
`base64.length * 0.75` compare exactly as `3 * length` against `4 * limit`. -/
def convertDataUriToInlineData (dataUri : List Char) : Option GePart :=
  if ¬ (cs "data:").isPrefixOf dataUri then none
  else
    let pieces := splitComma dataUri
    let header := pieces.headD []
    match (pieces.drop 1).head? with
    | none => none
    | some base64Data =>
      if base64Data.isEmpty then none
      else
        match parseMime header with
        | none => none
        | some mimeType =>
          if ¬ (cs "image/").isPrefixOf mimeType then none
          else if unsupportedFormats.any (fun f => f = mimeType) then none
          else if ¬ atobOk base64Data then none
          else if 3 * base64Data.length > 4 * (10 * 1024 * 1024) then none
          else some (.inlineData mimeType base64Data)

/-- `extractGifFrames`: one JPEG-relabelled frame, or a thrown message. The
oversize message's `toFixed(1)` MB figure is abstracted to the byte count. -/
def extractGifFrames (dataUri : List Char) : Except (List Char) (List GePart) :=
  let pieces := splitComma dataUri
  let header := pieces.headD []
  match (pieces.drop 1).head? with
  | none => .error (cs "GIF data URI 格式错误")
  | some base64Data =>
    if base64Data.isEmpty then .error (cs "GIF data URI 格式错误")
    else if ¬ containsSub header (cs "image/gif") then .error (cs "不是 GIF 格式")
    else if 3 * base64Data.length > 4 * (2 * 1024 * 1024) then
      .error (cs "GIF 过大 (" ++ cs (toString (3 * base64Data.length / 4)) ++
        cs " B)，请压缩到 2MB 以下。大 GIF 文件可能导致处理失败")
    else .ok [.inlineData (cs "image/jpeg") base64Data]

/-- JS truthiness of a message's `content` field. -/
def contentTruthy : MsgContent → Bool
  | .nullc => false
  | .str s => !s.isEmpty
  | .arr _ => true

/-- The parts derived from one non-system message (the loop body of the
transformer). The non-GIF image `catch` branch of the source is dead code:
`convertDataUriToInlineData` returns `null` instead of throwing. -/
def msgParts (jsonOk : List Char → Bool) (m : OpenAIMessage) : List GePart :=
  let fromContent : List GePart :=
    match m.content with
    | .str s => if (jsTrim s).isEmpty then [] else [.text s]
    | .arr ps =>
      ps.foldl
        (fun acc p =>
          match p with
          | .text t => if t.isEmpty then acc else acc ++ [.text t]
          | .imageUrl u =>
            if u.isEmpty then acc
            else if (cs "data:").isPrefixOf u then
              if containsSub u (cs "data:image/gif") then
                match extractGifFrames u with
                | .ok frames => acc ++ frames
                | .error msg =>
                  acc ++ [.text (cs "[GIF处理异常: " ++ msg ++ cs "]")]
              else
                match convertDataUriToInlineData u with
                | some part => acc ++ [part]
                | none => acc ++ [.text (cs "[data URI格式错误]")]
            else
              acc ++ [.text (cs "[请将图像转换为data:URI格式。远程图像URL在当前网络环境下不稳定，建议使用: deno task convert:image " ++ u ++ cs "]")]
          | .other => acc)
        []
    | .nullc => []
  let fromToolCalls : List GePart :=
    m.tool_calls.foldl
      (fun acc tc =>
        if tc.isFunction && jsonOk tc.arguments then
          acc ++ [.functionCall tc.name tc.arguments]
        else acc)
      []
  let fromToolResponse : List GePart :=
    if m.role = .tool ∧ ¬ m.tool_call_id.isEmpty ∧ contentTruthy m.content then
      [.functionResponse (cs "unknown_function") m.content]
    else []
  fromContent ++ fromToolCalls ++ fromToolResponse

def mapRoleToGemini : Role → List Char
  | .assistant => cs "model"
  | .user => cs "user"
  | .tool => cs "user"
  | .system => cs "user"

def transformTools (tools : List OpenAIToolIn) : List FnDecl :=
  (tools.filter (·.isFunction)).map (fun t => ⟨t.name, t.description, t.params⟩)

def transformToolChoice : ToolChoiceIn → GeToolConfig
  | .str s =>
    if s = cs "none" then ⟨cs "NONE", none⟩
    else if s = cs "auto" then ⟨cs "AUTO", none⟩
    else if s = cs "required" then ⟨cs "ANY", none⟩
    else ⟨cs "AUTO", none⟩
  | .fnChoice nm => ⟨cs "ANY", some [nm]⟩

/-- JS truthiness of `tool_choice`. -/
def toolChoiceTruthy : Option ToolChoiceIn → Bool
  | none => false
  | some (.str s) => !s.isEmpty
  | some (.fnChoice _) => true

def naturalOutputPrompt : List Char :=
  cs "请用自然、连贯的语言回复，严格禁止使用以下格式：\n- 禁止使用星号 * 和 ** 进行任何格式化\n- 禁止使用项目符号（• * - 1. 2. 等）\n- 禁止使用粗体、斜体等markdown格式\n- 禁止使用过多的分段和换行\n- 禁止使用列表和表格格式\n\n请用完全自然的对话语言，就像面对面聊天一样，用连贯的句子表达，不要使用任何格式化符号。"

def jsonPromptBase : List Char :=
  cs "请返回严格符合JSON语法的有效JSON格式。确保：\n- 所有字符串都用双引号包围\n- 属性名用双引号包围\n- 不要有多余的引号或转义字符\n- 确保JSON语法完全正确\n- 不要添加任何解释文字，只返回纯JSON\n- JSON对象不要用引号包围整体\n- 确保开头是 \x7b 结尾是 \x7d\n- 不要在JSON前后添加额外的引号或字符"

def jsonLenCtl (targetLength : Nat) : List Char :=
  cs "\n\n重要：请控制JSON内容的长度，特别是文本字段（如reason、description等）的内容应该简洁明了，总体内容长度控制在约" ++
  cs (toString targetLength) ++
  cs "个token以内。使用简短但准确的表达，避免冗长的描述。"

def jsonShortCtl : List Char :=
  cs "\n\n重要：用户希望得到简洁的回复，请将JSON中的文本内容控制得非常简短，每个文本字段不超过1-2句话，使用最精炼的表达方式。"

/-- `isJsonRequest` of the transformer. -/
def isJsonReq (req : OpenAIRequest) : Bool :=
  req.response_format = some (cs "json_object") || isJsonContentRequest req.messages

/-- `finalSystemContent` (source lines 763-809): the collected system text
augmented with the natural-output prompt, or with the JSON prompt and its
length-control suffix (whose `<= 500` second branch is unreachable). -/
def sysPromptOf (req : OpenAIRequest) (userSystemContent : List Char) : List Char :=
  if ¬ isJsonReq req then
    if userSystemContent.isEmpty then naturalOutputPrompt
    else userSystemContent ++ cs "\n\n" ++ naturalOutputPrompt
  else
    let jsonPrompt := jsonPromptBase
    let jsonPrompt :=
      match req.max_tokens with
      | some n =>
        if n ≤ 1000 then jsonPrompt ++ jsonLenCtl (max (n - 50) 50)
        else if n ≤ 500 then jsonPrompt ++ jsonShortCtl
        else jsonPrompt
      | none => jsonPrompt
    if userSystemContent.isEmpty then jsonPrompt
    else userSystemContent ++ cs "\n\n" ++ jsonPrompt

/-- The message loop's step: system text collection and content building. -/
def collectStep (jsonOk : List Char → Bool)
    (acc : List Char × List GeContent) (m : OpenAIMessage) :
    List Char × List GeContent :=
  match m.role with
  | .system =>
    match m.content with
    | .str s => ((if acc.1.isEmpty then s else acc.1 ++ '\n' :: s), acc.2)
    | _ => acc
  | _ =>
    let ps := msgParts jsonOk m
    if ps.isEmpty then acc
    else (acc.1, acc.2 ++ [⟨mapRoleToGemini m.role, ps⟩])

/-- The generation-config build (source lines 833-907), stage by stage. -/
def withTemperature (req : OpenAIRequest) (gc : GenConfig) : GenConfig :=
  match req.temperature with
  | some t => { gc with temperature := some t }
  | none => gc

def withTopP (req : OpenAIRequest) (gc : GenConfig) : GenConfig :=
  match req.top_p with
  | some t => { gc with topP := some t }
  | none => gc

def withMaxTokens (isJsonRequest : Bool) (req : OpenAIRequest) (gc : GenConfig) :
    GenConfig :=
  match req.max_tokens with
  | some n =>
    let finalMaxTokens :=
      if isJsonRequest then (if containsSub req.model (cs "2.5") then 65536 else 8192)
      else n
    { gc with maxOutputTokens := some finalMaxTokens }
  | none =>
    let v : Nat := if containsSub req.model (cs "2.5") then 65536 else 8192
    { gc with maxOutputTokens := some v }

def withStop (req : OpenAIRequest) (gc : GenConfig) : GenConfig :=
  match req.stop with
  | .absent => gc
  | .one s => if s.isEmpty then gc else { gc with stopSequences := some [s] }
  | .many l => { gc with stopSequences := some l }

def withRespFormat (isJsonRequest : Bool) (req : OpenAIRequest) (gc : GenConfig) :
    GenConfig :=
  if req.response_format = some (cs "json_object") || isJsonRequest then
    { gc with responseMimeType := some (cs "application/json") }
  else gc

def withThinking (req : OpenAIRequest) (gc : GenConfig) : GenConfig :=
  if containsSub req.model (cs "2.5") then
    if req.enable_thinking = some true then
      { gc with thinkingConfig := some ⟨true, none⟩ }
    else { gc with thinkingConfig := some ⟨false, some 0⟩ }
  else gc

def buildGenConfig (isJsonRequest : Bool) (req : OpenAIRequest) : GenConfig :=
  withThinking req (withRespFormat isJsonRequest req (withStop req
    (withMaxTokens isJsonRequest req (withTopP req (withTemperature req {})))))

/-- `transformOpenAIRequestToGemini` (part_004 request transformer). -/
def transformOpenAIRequestToGemini (jsonOk : List Char → Bool)
    (req : OpenAIRequest) : GeRequest :=
  let r := req.messages.foldl (collectStep jsonOk) ([], [])
  let userSystemContent := r.1
  let contents := r.2
  let isJsonRequest := isJsonReq req
  let finalSystemContent := sysPromptOf req userSystemContent
  let geminiRequest : GeRequest := { contents := contents }
  let geminiRequest :=
    if !finalSystemContent.isEmpty && !(jsTrim finalSystemContent).isEmpty then
      { geminiRequest with
        systemInstruction := some ⟨cs "user", [.text finalSystemContent]⟩ }
    else geminiRequest
  let geminiRequest :=
    if ¬ req.tools.isEmpty then
      let withTools := { geminiRequest with tools := some (transformTools req.tools) }
      match req.tool_choice with
      | some tc =>
        if toolChoiceTruthy (some tc) then
          { withTools with toolConfig := some (transformToolChoice tc) }
        else withTools
      | none => withTools
    else geminiRequest
  { geminiRequest with generationConfig := buildGenConfig isJsonRequest req }

/-- The backend model's maximum output limit (`65536` for a model whose name
contains "2.5", `8192` otherwise). -/
def modelMaxTokens (model : List Char) : Nat :=
  if containsSub model (cs "2.5") then 65536 else 8192

/-- A message's contribution to the collected system text. -/
def sysText (m : OpenAIMessage) : Option (List Char) :=
  if m.role = .system then
    match m.content with
    | .str s => some s
    | _ => none
  else none

/-- A non-system message's contribution to `contents`. -/
def contentEntry (jsonOk : List Char → Bool) (m : OpenAIMessage) :
    Option GeContent :=
  if m.role = .system then none
  else
    let ps := msgParts jsonOk m
    if ps.isEmpty then none else some ⟨mapRoleToGemini m.role, ps⟩

def joinStep (acc s : List Char) : List Char :=
  if acc.isEmpty then s else acc ++ '\n' :: s

/-- The newline-join of the string contents of the system messages, in
order (`userSystemContent += (userSystemContent ? "\n" : "") + content`). -/
def joinSystemTexts (msgs : List OpenAIMessage) : List Char :=
  (msgs.filterMap sysText).foldl joinStep []

end OtoG

namespace GtoO

/-! ## `src/transformers/geminiToOpenAI.ts` (response transformer)

`transformCandidateToChoice` and its helpers. The JS regex replaces are
modelled by deterministic left-to-right scanners (`rxReplace`): each
pattern's greedy/lazy behaviour collapses to a deterministic match at every
position, as noted on each matcher. `crypto.randomUUID` is the parameter
`uuid` (`uuid n` = the n-th identifier drawn). -/
/-- A matcher: given the remaining text and whether the position is a line
start (for multiline `^`), either no match here, or (replacement, last
consumed character, remaining text). Every matcher consumes at least one
character. -/
abbrev RxMatcher := List Char → Bool → Option (List Char × Char × List Char)

/-- Left-to-right global replace; `fuel` bounds the number of scan steps
(each consumes at least one character, so the initial length suffices).
After a step, the next position is a line start iff the character before it
is a line terminator (JS multiline `^`). -/
def rxReplaceAux (m : RxMatcher) : Nat → Bool → List Char → List Char
  | 0, _, s => s
  | fuel + 1, atStart, s =>
    match s with
    | [] => []
    | c :: rest =>
      match m (c :: rest) atStart with
      | some (repl, lastC, rest2) =>
        repl ++ rxReplaceAux m fuel (OtoG.isLineTerm lastC) rest2
      | none => c :: rxReplaceAux m fuel (OtoG.isLineTerm c) rest

def rxReplace (m : RxMatcher) (s : List Char) : List Char :=
  rxReplaceAux m s.length true s

/-- `^(alt₁|…)[^.]*\.` (multiline): an alternative literal at a line start,
then everything through the first following `.` (`[^.]` also spans lines).
At most one alternative matches at a position, and the greedy `[^.]*`
cannot backtrack past a `.`, so the match is deterministic. -/
def altDotMatcher (alts : List (List Char)) : RxMatcher := fun s atStart =>
  if !atStart then none
  else
    match alts.find? (fun a => a.isPrefixOf s) with
    | none => none
    | some a =>
      let rest := s.drop a.length
      let pre := rest.takeWhile (fun c => ¬ c = '.')
      match rest.drop pre.length with
      | '.' :: r2 => some ([], '.', r2)
      | _ => none

/-- `\*\*([^*]+)\*\*`; the replacement is the group when `keep` (the `$1`
form), empty otherwise. The non-star run is maximal — `[^*]+` cannot
stretch past a star. -/
def boldMatcher (keep : Bool) : RxMatcher := fun s _ =>
  match s with
  | '*' :: '*' :: rest =>
    let grp := rest.takeWhile (fun c => ¬ c = '*')
    if grp.isEmpty then none
    else
      match rest.drop grp.length with
      | '*' :: '*' :: r2 => some (if keep then grp else [], '*', r2)
      | _ => none
  | _ => none

/-- `\*([^*]+)\*` → `$1`. -/
def italMatcher : RxMatcher := fun s _ =>
  match s with
  | '*' :: rest =>
    let grp := rest.takeWhile (fun c => ¬ c = '*')
    if grp.isEmpty then none
    else
      match rest.drop grp.length with
      | '*' :: r2 => some (grp, '*', r2)
      | _ => none
  | _ => none

/-- `\n\s*\n` → `\n`: greedy `\s*` backtracks to the last newline inside
the whitespace run that follows the opening newline. -/
def blankLineMatcher : RxMatcher := fun s _ =>
  match s with
  | '\n' :: rest =>
    let w := rest.takeWhile isJsWs
    let revTail := w.reverse.takeWhile (fun c => ¬ c = '\n')
    if revTail.length = w.length then none
    else some (['\n'], '\n', revTail.reverse ++ rest.drop w.length)
  | _ => none

/-- `^\s*X\s+` (multiline) for a bullet character `X`. -/
def bulletMatcher (bullet : Char) : RxMatcher := fun s atStart =>
  if !atStart then none
  else
    let w1 := s.takeWhile isJsWs
    match s.drop w1.length with
    | b :: rest =>
      if b = bullet then
        let w2 := rest.takeWhile isJsWs
        if w2.isEmpty then none
        else some ([], w2.getLastD ' ', rest.drop w2.length)
      else none
    | [] => none

/-- `^\s*\d+\.\s+` (multiline). -/
def numDotMatcher : RxMatcher := fun s atStart =>
  if !atStart then none
  else
    let w1 := s.takeWhile isJsWs
    let rest := s.drop w1.length
    let ds := rest.takeWhile (fun c => c.isDigit)
    if ds.isEmpty then none
    else
      match rest.drop ds.length with
      | '.' :: rest2 =>
        let w2 := rest2.takeWhile isJsWs
        if w2.isEmpty then none
        else some ([], w2.getLastD ' ', rest2.drop w2.length)
      | _ => none

/-- `^\s+` (multiline). -/
def wsStartMatcher : RxMatcher := fun s atStart =>
  if !atStart then none
  else
    let w := s.takeWhile isJsWs
    if w.isEmpty then none
    else some ([], w.getLastD ' ', s.drop w.length)

/-- `\n{3,}` → `\n\n`. -/
def nlRunMatcher : RxMatcher := fun s _ =>
  let run := s.takeWhile (fun c => c = '\n')
  if 3 ≤ run.length then some (cs "\n\n", '\n', s.drop run.length)
  else none

def isCjk (c : Char) : Bool := '一' ≤ c && c ≤ '龥'

def isCjkCloser (c : Char) : Bool := c = '。' || c = '！' || c = '？'

/-- A match of `[一-龥][^.]*[。！？]` starting exactly here: greedy
`[^.]*` backtracks to the last closer before the first `.`. -/
def cjkSentenceAt (s : List Char) : Option (List Char) :=
  match s with
  | c :: rest =>
    if isCjk c then
      let pre := rest.takeWhile (fun x => ¬ x = '.')
      match pre.reverse.dropWhile (fun x => ¬ isCjkCloser x) with
      | closer :: revBefore => some (c :: revBefore.reverse ++ [closer])
      | [] => none
    else none
  | [] => none

/-- The first match of `[一-龥][^.]*[。！？]` (`match(...)[0]`). -/
def firstCjkSentence : List Char → Option (List Char)
  | [] => none
  | c :: rest =>
    match cjkSentenceAt (c :: rest) with
    | some m => some m
    | none => firstCjkSentence rest

/-- A match of `"([^"]*[一-龥][^"]*)"` starting exactly here. -/
def quotedCjkAt (s : List Char) : Option (List Char) :=
  match s with
  | '"' :: rest =>
    let q := rest.takeWhile (fun x => ¬ x = '"')
    match rest.drop q.length with
    | '"' :: _ => if q.any isCjk then some ('"' :: q ++ ['"']) else none
    | _ => none
  | _ => none

def firstQuotedCjk : List Char → Option (List Char)
  | [] => none
  | c :: rest =>
    match quotedCjkAt (c :: rest) with
    | some m => some m
    | none => firstQuotedCjk rest

/-- `s.match(/(\d+)/g)`: the maximal digit runs, in order. -/
def digitRunsAux : Nat → List Char → List (List Char)
  | 0, _ => []
  | _, [] => []
  | fuel + 1, c :: rest =>
    if c.isDigit then
      let run := rest.takeWhile Char.isDigit
      (c :: run) :: digitRunsAux fuel (rest.drop run.length)
    else digitRunsAux fuel rest

def digitRuns (s : List Char) : List (List Char) := digitRunsAux s.length s

/-- A match of `/lit(.*?)\./` starting exactly here (lazy group; `.`
excludes line terminators, so the group runs to the first `.` with no line
terminator before it). -/
def lazyDotAt (lit s : List Char) : Option (List Char) :=
  if lit.isPrefixOf s then
    let rest := s.drop lit.length
    let grp := rest.takeWhile (fun c => ¬ c = '.' && !OtoG.isLineTerm c)
    match rest.drop grp.length with
    | '.' :: _ => some grp
    | _ => none
  else none

def firstLazyDot (lit : List Char) : List Char → Option (List Char)
  | [] => none
  | c :: rest =>
    match lazyDotAt lit (c :: rest) with
    | some g => some g
    | none => firstLazyDot lit rest

def conclusionPatternsList : List (List Char) :=
  [cs "I'll ", cs "So I'll ", cs "My response will be ", cs "I should "]

/-- The conclusion-pattern loop of `generateAnswerFromThinking` (a pattern
that matches but fails the length check falls through to the next). -/
def conclusionAnswer (tc : List Char) : Option (List Char) :=
  (conclusionPatternsList.filterMap (fun lit =>
    match firstLazyDot lit tc with
    | some g =>
      let conclusion := jsTrim g
      if 10 < conclusion.length ∧ conclusion.length < 100 then
        some (cs "我明白了，" ++ conclusion)
      else none
    | none => none)).head?

def genAlts : List (List Char) :=
  [cs "Okay", cs "Well", cs "Alright", cs "Let's", cs "I", cs "My", cs "The",
   cs "First", cs "Next", cs "Now", cs "Finally"]

/-- `generateAnswerFromThinking`. -/
def generateAnswerFromThinking (thinkingContent : List Char) : List Char :=
  let cleanContent := jsTrim (rxReplace (altDotMatcher genAlts)
    (rxReplace (boldMatcher false) thinkingContent))
  match firstCjkSentence cleanContent with
  | some m => jsTrim m
  | none =>
  match firstQuotedCjk cleanContent with
  | some m => jsTrim (m.filter (fun c => ¬ c = '"'))
  | none =>
  if containsSub thinkingContent (cs "你好") ||
      containsSub thinkingContent (cs "\"你好\"") ||
      containsSub thinkingContent (cs "hello") then
    cs "你好！有什么我可以帮助你的吗？"
  else if containsSub thinkingContent (cs "Nice to meet you") ||
      containsSub thinkingContent (cs "认识你") ||
      containsSub thinkingContent (cs "pleased to meet") then
    cs "很高兴认识你！有什么我可以帮助你的吗？"
  else if containsSub thinkingContent (cs "calculation") ||
      containsSub thinkingContent (cs "multiply") ||
      containsSub thinkingContent (cs "×") ||
      (containsSub thinkingContent (cs "25") &&
        containsSub thinkingContent (cs "17")) then
    (let ns := digitRuns thinkingContent
     if 3 ≤ ns.length then cs "计算结果是 " ++ ns.getLastD [] ++ cs "。"
     else cs "让我为您计算一下。")
  else if containsSub thinkingContent (cs "JSON") ||
      containsSub thinkingContent (cs "json") then
    cs "\x7b\"message\": \"我理解了您的要求，让我用JSON格式回复。\"\x7d"
  else if containsSub thinkingContent (cs "day") ||
      containsSub thinkingContent (cs "week") ||
      containsSub thinkingContent (cs "星期") then
    cs "根据计算，答案是星期六。"
  else if containsSub thinkingContent (cs "AI助手") ||
      containsSub thinkingContent (cs "AI assistant") ||
      containsSub thinkingContent (cs "introduce") ||
      containsSub thinkingContent (cs "可爱") then
    cs "你好！我是一个可爱又乐于助人的AI助手，很高兴能在这里遇见你！我可以回答问题、提供帮助，或者陪你聊天。有什么我可以为你做的吗？"
  else
    match conclusionAnswer thinkingContent with
    | some ans => ans
    | none => cs "我理解了您的问题，让我来帮助您。"

def filterAlts : List (List Char) :=
  [cs "Let's", cs "I should", cs "I need to", cs "I'll", cs "My approach",
   cs "The key", cs "So ", cs "Well ", cs "Okay", cs "Alright", cs "Hmm"]

/-- `filterThinkingContent`; the float threshold `filtered.length <
content.length * 0.3` is modelled exactly as `10 * filtered < 3 * content`
(0.75-style products of small ints by 0.3 cannot cross an integer here). -/
def filterThinkingContent (content : List Char) : List Char :=
  if content.isEmpty then content
  else
    let filtered := jsTrim (rxReplace blankLineMatcher
      (rxReplace (boldMatcher false) (rxReplace (altDotMatcher filterAlts) content)))
    if 10 * filtered.length < 3 * content.length then content
    else if filtered.isEmpty then content
    else filtered

/-- Whether a trimmed non-blank short line merges with the next one. -/
def mergeOk (line nextLine : List Char) : Bool :=
  decide (line.length < 50) && !nextLine.isEmpty && decide (nextLine.length < 50) &&
  !containsSub nextLine (cs "：") && !containsSub nextLine (cs ":")

/-- The line-merging loop of `cleanMarkdownFormatting` (index `i` walk:
a successful merge consumes two lines). -/
def mergeLinesAux : List (List Char) → List (List Char) → List (List Char)
  | acc, [] => acc
  | acc, [l] =>
    let line := jsTrim l
    if line.isEmpty then
      (if !acc.isEmpty && acc.getLastD [] != [] then acc ++ [[]] else acc)
    else acc ++ [line]
  | acc, l :: next :: rest2 =>
    let line := jsTrim l
    if line.isEmpty then
      (if !acc.isEmpty && acc.getLastD [] != [] then
        mergeLinesAux (acc ++ [[]]) (next :: rest2)
       else mergeLinesAux acc (next :: rest2))
    else
      let nextLine := jsTrim next
      if mergeOk line nextLine then
        mergeLinesAux (acc ++ [line ++ ' ' :: nextLine]) rest2
      else mergeLinesAux (acc ++ [line]) (next :: rest2)

/-- `cleanMarkdownFormatting`. -/
def cleanMarkdownFormatting (content : List Char) : List Char :=
  if content.isEmpty then content
  else
    let cleaned := jsTrim (rxReplace nlRunMatcher (rxReplace wsStartMatcher
      (rxReplace numDotMatcher (rxReplace (bulletMatcher '-')
      (rxReplace (bulletMatcher '*') (rxReplace italMatcher
      (rxReplace (boldMatcher true) content)))))))
    jsTrim (joinNl (mergeLinesAux [] (splitNl cleaned)))

/-- OpenAI-shaped tool call of a non-streamed response. -/
structure RespToolFn where
  name : List Char
  arguments : List Char
  deriving DecidableEq, Repr

structure RespToolCall where
  id : List Char
  type : List Char
  function : RespToolFn
  deriving DecidableEq, Repr

structure RespMessage where
  role : List Char
  content : List Char
  tool_calls : Option (List RespToolCall) := none
  deriving DecidableEq, Repr

structure Choice where
  index : Nat
  message : RespMessage
  finish_reason : List Char
  deriving DecidableEq, Repr

/-- `candidate.content && candidate.content.parts` (absent → no parts). -/
def partsOf (cand : GeminiCandidate) : List GeminiPart :=
  match cand.content with
  | some c => c.parts
  | none => []

/-- The part-accumulation loop: (combinedContent, thinkingContent,
toolCalls); `uuid k` is the k-th identifier `crypto.randomUUID` yields. -/
def collectParts (uuid : Nat → List Char) (parts : List GeminiPart) :
    List Char × List Char × List RespToolCall :=
  parts.foldl (fun acc p =>
    if !p.text.isEmpty then
      if p.thought then (acc.1, acc.2.1 ++ p.text, acc.2.2)
      else (acc.1 ++ p.text, acc.2.1, acc.2.2)
    else
      match p.functionCall with
      | some fc =>
        (acc.1, acc.2.1,
         acc.2.2 ++ [⟨cs "call_" ++ uuid acc.2.2.length, cs "function",
                      ⟨fc.name, fc.argsJson⟩⟩])
      | none => acc) ([], [], [])

/-- `hasInlineThinking` (the `/\*\*.*\*\*/` disjunct is subsumed by
`includes("**")`). -/
def hasInlineThinking (combined : List Char) : Bool :=
  containsSub combined (cs "**") &&
  (containsSub combined (cs "Let's") || containsSub combined (cs "I should") ||
   containsSub combined (cs "Hmm") || containsSub combined (cs "Okay") ||
   containsSub combined (cs "Alright") || containsSub combined (cs "Well") ||
   containsSub combined (cs "My ") || containsSub combined (cs "The ") ||
   containsSub combined (cs "So "))

def inlineStartAlts : List (List Char) :=
  [cs "Let's", cs "I ", cs "My ", cs "The ", cs "So ", cs "Well ",
   cs "Okay", cs "Alright", cs "Hmm"]

/-- The inline-thinking separation loop: returns (extractedThinking,
extractedAnswer), both trimmed newline-joins of the kept raw lines. -/
def separateInline (combined : List Char) : List Char × List Char :=
  let r := (splitNl combined).foldl (fun acc line =>
    let t := jsTrim line
    let think := containsSub t (cs "**") ||
      inlineStartAlts.any (fun a => a.isPrefixOf t)
    let cjk := t.any isCjk && !think
    let mode := if cjk then false else acc.2.2
    if mode && think then (acc.1 ++ [line], acc.2.1, mode)
    else if !mode || cjk then (acc.1, acc.2.1 ++ [line], mode)
    else (acc.1, acc.2.1, mode)) ([], [], true)
  (jsTrim (joinNl r.1), jsTrim (joinNl r.2.1))

def thinkWrap (t a : List Char) : List Char :=
  cs "<think>\n" ++ t ++ cs "\n</think>\n\n" ++ a

/-- `finalContent` after the official/inline/plain three-way branch. -/
def stage1 (et : Bool) (combined thinking : List Char) : List Char :=
  if !(jsTrim thinking).isEmpty then
    (if et then thinkWrap thinking combined else combined)
  else if hasInlineThinking combined then
    (let p := separateInline combined
     if et && !p.1.isEmpty then thinkWrap p.1 p.2
     else if p.2.isEmpty then combined else p.2)
  else if et then combined else filterThinkingContent combined

/-- The empty-final-content fallback (generated answer or the generic
apology). -/
def genericApology : List Char := cs "抱歉，我暂时无法生成回复。请稍后再试。"

def stage2 (et : Bool) (thinking f : List Char) : List Char :=
  if (jsTrim f).isEmpty then
    (if !(jsTrim thinking).isEmpty then
      (let g := generateAnswerFromThinking thinking
       if et then thinkWrap thinking g else g)
     else genericApology)
  else f

/-- `isJsonResponse` inside the markdown-cleaning guard. -/
def isJsonResponse (f : List Char) : Bool :=
  (jsTrim f).head? == some '\x7b' || (jsTrim f).head? == some '[' ||
  containsSub f (cs "```json") ||
  (containsSub f (cs "\x7b") && containsSub f (cs "\x7d"))

/-- Markdown cleaning, applied only with reasoning disabled, non-empty
content, no `<think>` block and a non-JSON-looking answer. -/
def stage3 (et : Bool) (f : List Char) : List Char :=
  if !et && !f.isEmpty && !containsSub f (cs "<think>") then
    (if !isJsonResponse f then cleanMarkdownFormatting f else f)
  else f

def safetyApology : List Char :=
  cs "抱歉，由于安全策略限制，我无法回复此内容。请尝试重新表述您的问题。"

def recitationApology : List Char :=
  cs "抱歉，检测到可能的版权内容，我无法提供此回复。请尝试其他问题。"

def maxTokensApology : List Char := cs "回复内容过长被截断，请尝试要求更简短的回答。"

def otherApology : List Char := cs "由于技术原因无法完成回复，请稍后重试。"

def fallbackApology : List Char :=
  cs "模型未能生成有效回复，请稍后重试或尝试重新表述问题。"

/-- The finish-reason-specific error message of the last-resort block (the
initial `"抱歉，我暂时无法生成回复。"` is dead: the if/else chain always
overwrites it). -/
def errorMessageFor : Option FinishReason → List Char
  | some .SAFETY => safetyApology
  | some .RECITATION => recitationApology
  | some .MAX_TOKENS => maxTokensApology
  | some .OTHER => otherApology
  | _ => fallbackApology

/-- `${candidate.finishReason || '未知原因'}`. -/
def finishReasonText : Option FinishReason → List Char
  | none => cs "未知原因"
  | some .STOP => cs "STOP"
  | some .MAX_TOKENS => cs "MAX_TOKENS"
  | some .SAFETY => cs "SAFETY"
  | some .RECITATION => cs "RECITATION"
  | some .OTHER => cs "OTHER"
  | some .BLOCKLIST => cs "BLOCKLIST"
  | some .PROHIBITED_CONTENT => cs "PROHIBITED_CONTENT"
  | some .SPII => cs "SPII"
  | some .MALFORMED_FUNCTION_CALL => cs "MALFORMED_FUNCTION_CALL"

/-- The last-resort block for no tool calls and still-blank content. -/
def stage4 (et : Bool) (reason : Option FinishReason)
    (thinking : List Char) (toolCalls : List RespToolCall) (f : List Char) :
    List Char :=
  if toolCalls.isEmpty && (jsTrim f).isEmpty then
    (let e := errorMessageFor reason
     if et && !thinking.isEmpty then
       cs "<think>\n用户的请求遇到了处理问题：" ++ finishReasonText reason ++
         cs "。\n</think>\n\n" ++ e
     else e)
  else f

def mapFinishReasonToOpenAI : Option FinishReason → List Char
  | none => cs "stop"
  | some .STOP => cs "stop"
  | some .MAX_TOKENS => cs "length"
  | some .SAFETY => cs "content_filter"
  | some .RECITATION => cs "content_filter"
  | some .BLOCKLIST => cs "content_filter"
  | some .PROHIBITED_CONTENT => cs "content_filter"
  | some .SPII => cs "content_filter"
  | some .MALFORMED_FUNCTION_CALL => cs "tool_calls"
  | some .OTHER => cs "stop"

/-- `transformCandidateToChoice`. -/
def transformCandidateToChoice (uuid : Nat → List Char)
    (cand : GeminiCandidate) (index : Nat) (et : Bool) : Choice :=
  let r := collectParts uuid (partsOf cand)
  let f1 := stage1 et r.1 r.2.1
  let f2 := stage2 et r.2.1 f1
  let f3 := stage3 et f2
  let f4 := stage4 et cand.finishReason r.2.1 r.2.2 f3
  { index := index
  , message :=
    { role := cs "assistant"
    , content := if r.2.2.isEmpty then f4 else []
    , tool_calls := if r.2.2.isEmpty then none else some r.2.2 }
  , finish_reason := mapFinishReasonToOpenAI cand.finishReason }

structure Usage where
  prompt_tokens : Nat
  completion_tokens : Nat
  total_tokens : Nat
  deriving DecidableEq, Repr

structure OpenAIResponse where
  id : List Char
  model : List Char
  choices : List Choice
  usage : Usage
  deriving DecidableEq, Repr

/-- `transformGeminiResponseToOpenAI` (`enableThinking :=
openaiRequest.enable_thinking !== false`; absent candidate list yields the
empty default choice with raw empty content). -/
def transformGeminiResponseToOpenAI (uuid : Nat → List Char)
    (geminiResponse : GeminiResponse) (enableThinking : Bool)
    (requestId model : List Char) : OpenAIResponse :=
  let choices :=
    if !geminiResponse.candidates.isEmpty then
      geminiResponse.candidates.mapIdx (fun i c =>
        transformCandidateToChoice uuid c i enableThinking)
    else [⟨0, ⟨cs "assistant", [], none⟩, cs "stop"⟩]
  let pt := (geminiResponse.usageMetadata.bind (·.promptTokenCount)).getD 0
  let ct := (geminiResponse.usageMetadata.bind (·.candidatesTokenCount)).getD 0
  let tt := (geminiResponse.usageMetadata.bind (·.totalTokenCount)).getD 0
  let th := (geminiResponse.usageMetadata.bind (·.thoughtsTokenCount)).getD 0
  { id := requestId, model := model, choices := choices
  , usage := ⟨pt, ct, if th ≠ 0 then pt + ct + th else tt⟩ }

/-- An alternation literal whose head is a definite non-whitespace
character (so it can never match inside whitespace-only text). -/
def altHeadSolid (a : List Char) : Bool :=
  match a with
  | [] => false
  | c :: _ => !isJsWs c

end GtoO

theorem splitNl_ne_nil (s : List Char) : splitNl s ≠ [] := by
  cases s with
  | nil => simp [splitNl]
  | cons c t =>
    simp only [splitNl]
    cases h : splitNl t with
    | nil => simp
    | cons l ls => by_cases hc : c = '\n' <;> simp [hc]

namespace ImgCache

theorem b64_append (x y : List Nat) (h : x.length % 3 = 0) :
    b64 (x ++ y) = b64 x ++ b64 y := by
  match x with
  | [] => simp [b64]
  | [a] => simp at h
  | [a, b] => simp at h
  | a :: b :: c :: r =>
    have hr : r.length % 3 = 0 := by
      simp only [List.length_cons] at h
      omega
    simp [b64, b64_append r y hr]

theorem b64_length (x : List Nat) (h : x.length % 3 = 0) :
    (b64 x).length = x.length / 3 * 4 := by
  match x with
  | [] => simp [b64]
  | [a] => simp at h
  | [a, b] => simp at h
  | a :: b :: c :: r =>
    have hr : r.length % 3 = 0 := by
      simp only [List.length_cons] at h
      omega
    simp only [b64, List.length_cons, b64_length r hr]
    omega

/-- Two URLs sharing their first 24 code points share their cache key. -/
theorem getCacheKey_eq_of_prefix24 (u1 u2 : List Char)
    (hpre : u1.take 24 = u2.take 24) (h1 : 24 ≤ u1.length) (h2 : 24 ≤ u2.length) :
    getCacheKey u1 = getCacheKey u2 := by
  have key_eq : ∀ u : List Char, 24 ≤ u.length →
      getCacheKey u = b64 ((u.take 24).map Char.toNat) := by
    intro u hu
    have hsplit : u = u.take 24 ++ u.drop 24 := (List.take_append_drop 24 u).symm
    have hlen : ((u.take 24).map Char.toNat).length = 24 := by
      simp [List.length_take]; omega
    have hmod : ((u.take 24).map Char.toNat).length % 3 = 0 := by rw [hlen]
    have henc : b64 (u.map Char.toNat) =
        b64 ((u.take 24).map Char.toNat) ++ b64 ((u.drop 24).map Char.toNat) := by
      conv_lhs => rw [hsplit]
      rw [List.map_append, b64_append _ _ hmod]
    have hl : (b64 ((u.take 24).map Char.toNat)).length = 32 := by
      rw [b64_length _ hmod, hlen]
    unfold getCacheKey
    rw [henc, List.take_append_of_le_length (by omega), hl.symm, List.take_length]
  rw [key_eq u1 h1, key_eq u2 h2, hpre]

/-- C10: the cache key is the first 32 characters of the base64 encoding of
the URI, so the key function is not injective: for any two distinct URIs that
share their first 24 code points, `set(u2, ...)` after `set(u1, ...)`
overwrites u1's entry and a `get(u1)` within the TTL returns u2's payload. -/
theorem imageCache_collision_c10 (u1 u2 p1 m1 p2 m2 : List Char)
    (s1 s2 t1 t2 t3 : Nat)
    (_hne : u1 ≠ u2) (hpre : u1.take 24 = u2.take 24)
    (h1 : 24 ≤ u1.length) (h2 : 24 ≤ u2.length)
    (httl : t3 - t2 ≤ CACHE_TTL) :
    (cacheGet (cacheSet (cacheSet [] t1 u1 p1 m1 s1) t2 u2 p2 m2 s2) t3 u1).1 =
      some (p2, m2) := by
  have hk : getCacheKey u1 = getCacheKey u2 :=
    getCacheKey_eq_of_prefix24 u1 u2 hpre h1 h2
  have hstep1 : cacheSet [] t1 u1 p1 m1 s1 =
      [(getCacheKey u1, ⟨p1, m1, t1, s1⟩)] := by
    simp [cacheSet, mapSet, MAX_CACHE_SIZE]
  have hstep2 : cacheSet [(getCacheKey u1, ⟨p1, m1, t1, s1⟩)] t2 u2 p2 m2 s2 =
      [(getCacheKey u1, ⟨p2, m2, t2, s2⟩)] := by
    simp only [cacheSet]
    rw [if_neg (by norm_num [MAX_CACHE_SIZE]), ← hk]
    simp [mapSet]
  have hc : ¬ CACHE_TTL < t3 - t2 := by omega
  rw [hstep1, hstep2]
  simp [cacheGet, mapGet, hc]

/-- C10 witness: two concrete 24-character-prefix-sharing URIs. -/
theorem imageCache_collision_c10_witness :
    (cacheGet
      (cacheSet
        (cacheSet [] 0 (cs "http://example.com/aaaaaa") (cs "P1") (cs "image/png") 1)
        5 (cs "http://example.com/aaaaab") (cs "P2") (cs "image/jpeg") 2)
      6 (cs "http://example.com/aaaaaa")).1 =
    some (cs "P2", cs "image/jpeg") :=
  imageCache_collision_c10 (cs "http://example.com/aaaaaa")
    (cs "http://example.com/aaaaab") (cs "P1") (cs "image/png") (cs "P2")
    (cs "image/jpeg") 1 2 0 5 6 (by decide) (by decide) (by decide) (by decide)
    (by decide)

end ImgCache

namespace Client

theorem makeRequestGo_429 (N maxRetries : Nat) (jitter : Nat → ℚ)
    (hN : 1 ≤ N) (hNM : N ≤ maxRetries) :
    ∀ d j, j ≤ N - 1 → N - 1 - j = d →
      makeRequestGo (backend429 N) jitter maxRetries (maxRetries - j) j =
        ⟨.response 200 (N - 1), List.range' j (N - j),
          (List.range' j (N - 1 - j)).map (backoffDelay jitter)⟩ := by
  intro d
  induction d with
  | zero =>
    intro j hj hd
    have hj' : j = N - 1 := by omega
    subst hj'
    obtain ⟨f, hf⟩ : ∃ f, maxRetries - (N - 1) = f + 1 :=
      ⟨maxRetries - (N - 1) - 1, by omega⟩
    conv_lhs => rw [hf]
    have hb : backend429 N (N - 1) = FetchOutcome.resp 200 := by simp [backend429]
    simp only [makeRequestGo, hb]
    rw [if_neg (show ¬ maxRetries ≤ N - 1 from by omega),
      if_neg (show ¬ ((200 = 429 ∨ 500 ≤ 200) ∧ N - 1 < maxRetries - 1) from by
        rintro ⟨h200, -⟩
        omega)]
    have e1 : N - (N - 1) = 1 := by omega
    have e2 : N - 1 - (N - 1) = 0 := by omega
    rw [e1, e2]
    simp
  | succ d ih =>
    intro j hj hd
    have hjlt : j < N - 1 := by omega
    obtain ⟨f, hf⟩ : ∃ f, maxRetries - j = f + 1 := ⟨maxRetries - j - 1, by omega⟩
    conv_lhs => rw [hf]
    have hb : backend429 N j = FetchOutcome.resp 429 := by simp [backend429, hjlt]
    simp only [makeRequestGo, hb]
    rw [if_neg (show ¬ maxRetries ≤ j from by omega),
      if_pos (show (True ∨ 500 ≤ 429) ∧ j < maxRetries - 1 from
        ⟨Or.inl trivial, by omega⟩)]
    have hfev : f = maxRetries - (j + 1) := by omega
    rw [hfev, ih (j + 1) (by omega) (by omega)]
    have h1 : N - j = (N - (j + 1)) + 1 := by omega
    have h2 : N - 1 - j = (N - 1 - (j + 1)) + 1 := by omega
    rw [h1, h2, List.range'_succ, List.range'_succ]
    simp

theorem makeRequestGo_all429 (M : Nat) (jitter : Nat → ℚ) (hM : 1 ≤ M) :
    ∀ d j, j ≤ M - 1 → M - 1 - j = d →
      makeRequestGo (fun _ => .resp 429) jitter M (M - j) j =
        ⟨.response 429 (M - 1), List.range' j (M - j),
          (List.range' j (M - 1 - j)).map (backoffDelay jitter)⟩ := by
  intro d
  induction d with
  | zero =>
    intro j hj hd
    have hj' : j = M - 1 := by omega
    subst hj'
    obtain ⟨f, hf⟩ : ∃ f, M - (M - 1) = f + 1 := ⟨M - (M - 1) - 1, by omega⟩
    conv_lhs => rw [hf]
    simp only [makeRequestGo]
    rw [if_neg (show ¬ M ≤ M - 1 from by omega),
      if_neg (show ¬ ((True ∨ 500 ≤ 429) ∧ M - 1 < M - 1) from by
        rintro ⟨-, h⟩
        omega)]
    have e1 : M - (M - 1) = 1 := by omega
    have e2 : M - 1 - (M - 1) = 0 := by omega
    rw [e1, e2]
    simp
  | succ d ih =>
    intro j hj hd
    have hjlt : j < M - 1 := by omega
    obtain ⟨f, hf⟩ : ∃ f, M - j = f + 1 := ⟨M - j - 1, by omega⟩
    conv_lhs => rw [hf]
    simp only [makeRequestGo]
    rw [if_neg (show ¬ M ≤ j from by omega),
      if_pos (show (True ∨ 500 ≤ 429) ∧ j < M - 1 from ⟨Or.inl trivial, by omega⟩)]
    have hfev : f = M - (j + 1) := by omega
    rw [hfev, ih (j + 1) (by omega) (by omega)]
    have h1 : M - j = (M - (j + 1)) + 1 := by omega
    have h2 : M - 1 - j = (M - 1 - (j + 1)) + 1 := by omega
    rw [h1, h2, List.range'_succ, List.range'_succ]
    simp

/-- C9: with `M = min(maxRetries, poolSize)` effective attempts available and a
backend answering 429 on the first `N-1` attempts and 200 on attempt `N`
(1 ≤ N ≤ M), `makeRequest` returns that one successful response, makes exactly
`N` attempted calls using credential `i` on attempt `i`, and waits
`min(2^attempt * 1000 + jitter, 10000)` ms between consecutive attempts; and
when every attempt yields 429, the non-ok response of the last attempt is
surfaced to the caller as an error after exactly `M` attempted calls. -/
theorem geminiClient_failover_c9 (cfgMaxRetries poolSize N : Nat) (jitter : Nat → ℚ)
    (hN : 1 ≤ N) (hNM : N ≤ min cfgMaxRetries poolSize) :
    (makeRequest (backend429 N) jitter (min cfgMaxRetries poolSize) =
      ⟨.response 200 (N - 1), List.range N,
        (List.range (N - 1)).map (backoffDelay jitter)⟩) ∧
    (makeRequest (fun _ => .resp 429) jitter (min cfgMaxRetries poolSize) =
      ⟨.response 429 (min cfgMaxRetries poolSize - 1),
        List.range (min cfgMaxRetries poolSize),
        (List.range (min cfgMaxRetries poolSize - 1)).map (backoffDelay jitter)⟩ ∧
      surfacesError (makeRequest (fun _ => .resp 429) jitter
        (min cfgMaxRetries poolSize)) = true) := by
  set M := min cfgMaxRetries poolSize with hM
  have hMpos : 1 ≤ M := le_trans hN hNM
  have hsucc := makeRequestGo_429 N M jitter hN hNM (N - 1 - 0) 0 (by omega) rfl
  have hfail := makeRequestGo_all429 M jitter hMpos (M - 1 - 0) 0 (by omega) rfl
  refine ⟨?_, ?_, ?_⟩
  · simpa [makeRequest, List.range_eq_range'] using hsucc
  · simpa [makeRequest, List.range_eq_range'] using hfail
  · have : makeRequest (fun _ => .resp 429) jitter M =
        ⟨.response 429 (M - 1), List.range' 0 M,
          (List.range' 0 (M - 1)).map (backoffDelay jitter)⟩ := by
      simpa [makeRequest] using hfail
    rw [this]
    simp [surfacesError]

/-- C9 witness: `N = 2` successful attempts out of `min(3, 2) = 2`. -/
theorem geminiClient_failover_c9_witness :
    (makeRequest (backend429 2) (fun _ => 0) (min 3 2) =
      ⟨.response 200 1, List.range 2,
        (List.range 1).map (backoffDelay (fun _ => 0))⟩) ∧
    (makeRequest (fun _ => .resp 429) (fun _ => 0) (min 3 2) =
      ⟨.response 429 (min 3 2 - 1), List.range (min 3 2),
        (List.range (min 3 2 - 1)).map (backoffDelay (fun _ => 0))⟩ ∧
      surfacesError (makeRequest (fun _ => .resp 429) (fun _ => 0) (min 3 2)) = true) :=
  geminiClient_failover_c9 3 2 2 (fun _ => 0) (by decide) (by decide)

end Client

namespace SSE

/-- `splitNlP` agrees with `splitNl` followed by popping the last element. -/
theorem splitNl_eq_P (s : List Char) :
    splitNl s = (splitNlP s).1 ++ [(splitNlP s).2] := by
  induction s with
  | nil => simp [splitNl, splitNlP]
  | cons c t ih =>
    simp only [splitNl, splitNlP]
    rw [ih]
    by_cases hc : c = '\n'
    · cases h : (splitNlP t).1 <;> simp [hc, h]
    · cases h : (splitNlP t).1 <;> simp [hc, h]

section

variable (parse : List Char → Option GeminiResponse) (uuid : Nat → List Char)
variable (requestId modelName : List Char)

theorem splitNlP_append (x y : List Char) :
    splitNlP (x ++ y) = mergeSplit (splitNlP x) (splitNlP y) := by
  induction x with
  | nil =>
    rcases hy : splitNlP y with ⟨yc, yl⟩
    cases yc <;> simp [splitNlP, mergeSplit, hy]
  | cons c t ih =>
    rcases hy : splitNlP y with ⟨yc, yl⟩
    rcases ht : splitNlP t with ⟨tc, tl⟩
    rw [List.cons_append]
    simp only [splitNlP, ih, ht, hy]
    by_cases hc : c = '\n'
    · cases yc <;> simp [mergeSplit, hc]
    · cases yc <;> cases tc <;> simp [mergeSplit, hc]

theorem splitNlP_frag_noNl (s : List Char) : '\n' ∉ (splitNlP s).2 := by
  induction s with
  | nil => simp [splitNlP]
  | cons c t ih =>
    by_cases hc : c = '\n'
    · simpa [splitNlP, hc] using ih
    · cases h : (splitNlP t).1 with
      | nil =>
        simp only [splitNlP, if_neg hc, h]
        intro hm
        rcases List.mem_cons.mp hm with h1 | h2
        · exact hc h1.symm
        · exact ih h2
      | cons l ls =>
        simpa [splitNlP, hc, h] using ih

theorem splitNlP_of_noNl (s : List Char) (h : '\n' ∉ s) : splitNlP s = ([], s) := by
  induction s with
  | nil => simp [splitNlP]
  | cons c t ih =>
    have hc : ¬ c = '\n' := fun hh => h (by simp [hh])
    have ht : '\n' ∉ t := fun hh => h (List.mem_cons_of_mem _ hh)
    simp [splitNlP, ih ht, hc]

theorem processLines_append (parse : List Char → Option GeminiResponse)
    (uuid : Nat → List Char) (rid mdl : List Char)
    (u v : List (List Char)) :
    ∀ st, processLines parse uuid rid mdl st (u ++ v) =
      ((processLines parse uuid rid mdl st u).1 ++
        (processLines parse uuid rid mdl
          (processLines parse uuid rid mdl st u).2 v).1,
       (processLines parse uuid rid mdl
          (processLines parse uuid rid mdl st u).2 v).2) := by
  induction u with
  | nil => intro st; simp [processLines]
  | cons l ls ih =>
    intro st
    simp only [List.cons_append, processLines, List.append_eq]
    rw [ih]
    simp

theorem feedChunk_append (parse : List Char → Option GeminiResponse)
    (uuid : Nat → List Char) (rid mdl : List Char) (st : SSEState)
    (a b : List Char) :
    feedChunk parse uuid rid mdl st (a ++ b) =
      ((feedChunk parse uuid rid mdl (feedChunk parse uuid rid mdl st a).1 b).1,
       (feedChunk parse uuid rid mdl st a).2 ++
         (feedChunk parse uuid rid mdl (feedChunk parse uuid rid mdl st a).1 b).2) := by
  rcases hx : splitNlP (st.buffer ++ a) with ⟨xc, xl⟩
  rcases hy : splitNlP b with ⟨yc, yl⟩
  have hxl : '\n' ∉ xl := by
    have h := splitNlP_frag_noNl (st.buffer ++ a)
    rwa [hx] at h
  have hsplit1 : splitNlP (st.buffer ++ (a ++ b)) = mergeSplit (xc, xl) (yc, yl) := by
    rw [show st.buffer ++ (a ++ b) = (st.buffer ++ a) ++ b from by simp,
      splitNlP_append, hx, hy]
  have hsplit2 : splitNlP (xl ++ b) = mergeSplit ([], xl) (yc, yl) := by
    rw [splitNlP_append, splitNlP_of_noNl xl hxl, hy]
  cases yc with
  | nil =>
    simp only [feedChunk, hsplit1, hx, hsplit2, mergeSplit]
    simp [processLines]
  | cons yh yt =>
    simp only [feedChunk, hsplit1, hx, hsplit2, mergeSplit]
    rw [processLines_append]
    simp

theorem runFeeds_flatten (parse : List Char → Option GeminiResponse)
    (uuid : Nat → List Char) (rid mdl : List Char) :
    ∀ (chunks : List (List Char)) (st : SSEState), '\n' ∉ st.buffer →
      runFeeds parse uuid rid mdl st chunks =
        feedChunk parse uuid rid mdl st chunks.flatten := by
  intro chunks
  induction chunks with
  | nil =>
    rintro ⟨buf, rs, tcs⟩ hb
    simp [runFeeds, feedChunk, splitNlP_of_noNl buf hb, processLines]
  | cons c rest ih =>
    intro st hb
    have hb1 : '\n' ∉ (feedChunk parse uuid rid mdl st c).1.buffer := by
      rcases hx : splitNlP (st.buffer ++ c) with ⟨xc, xl⟩
      have h := splitNlP_frag_noNl (st.buffer ++ c)
      rw [hx] at h
      simpa [feedChunk, hx] using h
    simp only [runFeeds, List.flatten_cons]
    rw [feedChunk_append, ih _ hb1]

/-- C2: reassembling the backend stream from any chunking produces exactly
the same client event sequence (flush included) as feeding all bytes in one
chunk — for every upstream payload parser and identifier source. -/
theorem sse_chunk_independence_c2 (parse : List Char → Option GeminiResponse)
    (uuid : Nat → List Char) (requestId modelName : List Char)
    (chunks : List (List Char)) :
    runStream parse uuid requestId modelName chunks =
      runStream parse uuid requestId modelName [chunks.flatten] := by
  simp only [runStream]
  rw [runFeeds_flatten parse uuid requestId modelName chunks initState
      (by simp [initState]),
    runFeeds_flatten parse uuid requestId modelName [chunks.flatten] initState
      (by simp [initState])]
  simp

theorem filter_done_map_chunk (l : List StreamChunk) :
    (l.map SSEEvent.chunk).filter isDoneEv = [] := by
  induction l with
  | nil => simp
  | cons c t ih => simp [isDoneEv, ih]

theorem processLine_done_count (parse : List Char → Option GeminiResponse)
    (uuid : Nat → List Char) (rid mdl : List Char) (rs : Bool)
    (tcs : List ToolCallDelta) (l : List Char) :
    ((processLine parse uuid rid mdl rs tcs l).1.filter isDoneEv).length =
      if isDoneLine l then 1 else 0 := by
  simp only [processLine, isDoneLine]
  by_cases h0 : (jsTrim l).isEmpty
  · have hl : jsTrim l = [] := by simpa [List.isEmpty_iff] using h0
    simp [h0, hl, List.isPrefixOf]
  · simp only [h0, Bool.false_eq_true, if_false]
    by_cases h1 : (cs "data: ").isPrefixOf (jsTrim l)
    · simp only [h1, if_true]
      by_cases h2 : (jsTrim l).drop 6 = cs "[DONE]"
      · simp [h2, isDoneEv]
      · have h2' : ((jsTrim l).drop 6 == cs "[DONE]") = false := by
          simpa [beq_iff_eq] using h2
        cases hp : parse ((jsTrim l).drop 6) <;>
          simp [h2, h2', filter_done_map_chunk]
    · have h1' : ((cs "data: ").isPrefixOf (jsTrim l)) = false := Bool.eq_false_iff.mpr h1
      by_cases h3 : (jsTrim l).head? = some '\x7b' ∧ (jsTrim l).getLast? = some '\x7d'
      · cases hp : parse (jsTrim l) <;>
          simp [h1', h3, hp, filter_done_map_chunk, isDoneEv]
      · simp [h1', h3]

theorem processLines_done_count (parse : List Char → Option GeminiResponse)
    (uuid : Nat → List Char) (rid mdl : List Char) (lines : List (List Char)) :
    ∀ st, (((processLines parse uuid rid mdl st lines).1).filter isDoneEv).length =
      (lines.filter isDoneLine).length := by
  induction lines with
  | nil => intro st; simp [processLines]
  | cons l ls ih =>
    intro st
    simp only [processLines]
    rw [List.filter_append, List.length_append, processLine_done_count, ih]
    by_cases h : isDoneLine l <;> simp [h, List.filter_cons, Nat.add_comm]

theorem flushState_done_count (parse : List Char → Option GeminiResponse)
    (uuid : Nat → List Char) (rid mdl : List Char) (st : SSEState) :
    ((flushState parse uuid rid mdl st).filter isDoneEv).length = 1 := by
  simp only [flushState]
  by_cases h : (!(jsTrim st.buffer).isEmpty && (jsTrim st.buffer) != cs "]" &&
      (jsTrim st.buffer) != cs "[" && decide (2 < (jsTrim st.buffer).length)) = true
  · cases hp : parse (jsTrim st.buffer) <;>
      simp [h, hp, filter_done_map_chunk, isDoneEv]
  · simp only [Bool.not_eq_true] at h
    simp [h, isDoneEv]

/-- C5 (amended): over any chunking, the output carries one terminal
`data: [DONE]` marker from the flush step (emitted after the final parse
attempt of trailing buffered content) plus one forwarded marker per complete
upstream `data: [DONE]` line — so "exactly once" holds only when the
upstream input contains no complete terminal line of its own. -/
theorem sse_done_count_c5_amended (parse : List Char → Option GeminiResponse)
    (uuid : Nat → List Char) (requestId modelName : List Char)
    (chunks : List (List Char)) :
    ((runStream parse uuid requestId modelName chunks).filter isDoneEv).length =
      ((splitNlP chunks.flatten).1.filter isDoneLine).length + 1 := by
  simp only [runStream]
  rw [runFeeds_flatten parse uuid requestId modelName chunks initState
      (by simp [initState])]
  simp only [feedChunk, initState, List.nil_append]
  rw [List.filter_append, List.length_append, processLines_done_count,
    flushState_done_count]

/-- C5 counterexample: an upstream input consisting of the single complete
line `data: [DONE]` produces the terminal marker twice, not exactly once. -/
theorem sse_done_count_c5_counterexample :
    runStream (fun _ => none) (fun _ => []) [] [] [cs "data: [DONE]\n"] =
      [SSEEvent.done, SSEEvent.done] ∧
    ¬ ((runStream (fun _ => none) (fun _ => []) [] []
        [cs "data: [DONE]\n"]).filter isDoneEv).length = 1 := by
  constructor <;> decide

/-- C4 (amended): the stream transformer assigns every function-call part a
fresh index equal to the number of tool-call deltas created so far on this
stream (`currentToolCalls.size`), with a fresh id — it never re-uses the
index of an earlier delta of the same call, so successive fragments of one
call get the strictly increasing indices 0, 1, 2, …. -/
theorem sse_toolcall_fresh_index_c4 (uuid : Nat → List Char)
    (requestId modelName role nm args : List Char) (r : Bool)
    (tcs : List ToolCallDelta) (fin : Option FinishReason) :
    transformGeminiChunkToOpenAI uuid requestId modelName
      ⟨[⟨some ⟨role, [⟨[], false, some ⟨nm, args⟩⟩]⟩, fin⟩], none⟩ r tcs =
      ([⟨requestId, modelName,
          [⟨0, ⟨(if r then none else some (cs "assistant")), none,
            some [⟨tcs.length, cs "call_" ++ uuid tcs.length, ⟨nm, args⟩⟩]⟩,
            mapFinishReasonStream fin⟩]⟩],
        tcs ++ [⟨tcs.length, cs "call_" ++ uuid tcs.length, ⟨nm, args⟩⟩]) := by
  cases r <;>
    simp [transformGeminiChunkToOpenAI, candidateDelta, processPart, partHasPayload]

/-- C4 counterexample: three successive chunks carrying a fragment of the
same function call receive the three distinct indices 0, 1 and 2; the claim
that all three deltas carry one and the same index is false. -/
theorem sse_toolcall_index_c4_counterexample :
    (firstToolIndex (transformGeminiChunkToOpenAI (fun _ => []) [] []
        ⟨[⟨some ⟨cs "model", [⟨[], false, some ⟨cs "f", cs "\x7b\x7d"⟩⟩]⟩, none⟩], none⟩
        false []) = some 0 ∧
     firstToolIndex (transformGeminiChunkToOpenAI (fun _ => []) [] []
        ⟨[⟨some ⟨cs "model", [⟨[], false, some ⟨cs "f", cs "\x7b\x7d"⟩⟩]⟩, none⟩], none⟩
        true (transformGeminiChunkToOpenAI (fun _ => []) [] []
          ⟨[⟨some ⟨cs "model", [⟨[], false, some ⟨cs "f", cs "\x7b\x7d"⟩⟩]⟩, none⟩], none⟩
          false []).2) = some 1 ∧
     firstToolIndex (transformGeminiChunkToOpenAI (fun _ => []) [] []
        ⟨[⟨some ⟨cs "model", [⟨[], false, some ⟨cs "f", cs "\x7b\x7d"⟩⟩]⟩, none⟩], none⟩
        true (transformGeminiChunkToOpenAI (fun _ => []) [] []
          ⟨[⟨some ⟨cs "model", [⟨[], false, some ⟨cs "f", cs "\x7b\x7d"⟩⟩]⟩, none⟩], none⟩
          true (transformGeminiChunkToOpenAI (fun _ => []) [] []
            ⟨[⟨some ⟨cs "model", [⟨[], false, some ⟨cs "f", cs "\x7b\x7d"⟩⟩]⟩, none⟩], none⟩
            false []).2).2) = some 2) ∧
    ¬ (firstToolIndex (transformGeminiChunkToOpenAI (fun _ => []) [] []
        ⟨[⟨some ⟨cs "model", [⟨[], false, some ⟨cs "f", cs "\x7b\x7d"⟩⟩]⟩, none⟩], none⟩
        true (transformGeminiChunkToOpenAI (fun _ => []) [] []
          ⟨[⟨some ⟨cs "model", [⟨[], false, some ⟨cs "f", cs "\x7b\x7d"⟩⟩]⟩, none⟩], none⟩
          false []).2) =
       firstToolIndex (transformGeminiChunkToOpenAI (fun _ => []) [] []
        ⟨[⟨some ⟨cs "model", [⟨[], false, some ⟨cs "f", cs "\x7b\x7d"⟩⟩]⟩, none⟩], none⟩
        false [])) := by
  decide

end

end SSE

theorem jsTrim_eq_nil_iff (s : List Char) : jsTrim s = [] ↔ ∀ c ∈ s, isJsWs c := by
  unfold jsTrim
  rw [List.reverse_eq_nil_iff, List.dropWhile_eq_nil_iff]
  constructor
  · intro h c hc
    have hc' : c ∈ s.takeWhile isJsWs ++ s.dropWhile isJsWs := by
      rwa [List.takeWhile_append_dropWhile]
    rcases List.mem_append.mp hc' with h1 | h2
    · exact List.mem_takeWhile_imp h1
    · exact h c (List.mem_reverse.mpr h2)
  · intro h c hc
    exact h c ((List.dropWhile_sublist isJsWs).subset (List.mem_reverse.mp hc))

namespace OtoG

theorem withStop_max (req : OpenAIRequest) (gc : GenConfig) :
    (withStop req gc).maxOutputTokens = gc.maxOutputTokens := by
  unfold withStop
  cases req.stop with
  | absent => rfl
  | one s => by_cases h : s.isEmpty <;> simp [h]
  | many l => rfl

theorem withRespFormat_max (j : Bool) (req : OpenAIRequest) (gc : GenConfig) :
    (withRespFormat j req gc).maxOutputTokens = gc.maxOutputTokens := by
  unfold withRespFormat
  split_ifs <;> rfl

theorem withThinking_max (req : OpenAIRequest) (gc : GenConfig) :
    (withThinking req gc).maxOutputTokens = gc.maxOutputTokens := by
  unfold withThinking
  split_ifs <;> rfl

/-- C6 (amended): a supplied `max_tokens` maps through unchanged only when
the request is not detected as a JSON request; for detected JSON requests
the supplied value is overridden by the model maximum (65536 for "2.5"
models, 8192 otherwise), and an absent `max_tokens` selects that model
maximum. -/
theorem otog_maxtokens_c6_amended (jsonOk : List Char → Bool)
    (req : OpenAIRequest) :
    (transformOpenAIRequestToGemini jsonOk req).generationConfig.maxOutputTokens =
      some (match req.max_tokens with
        | some n => if isJsonReq req then modelMaxTokens req.model else n
        | none => modelMaxTokens req.model) := by
  have hgen : (transformOpenAIRequestToGemini jsonOk req).generationConfig =
      buildGenConfig (isJsonReq req) req := rfl
  rw [hgen]
  unfold buildGenConfig
  rw [withThinking_max, withRespFormat_max, withStop_max]
  unfold withMaxTokens modelMaxTokens
  cases req.max_tokens <;> simp

/-- C6 counterexample: `max_tokens = 100` with `response_format json_object`
is not mapped through unchanged — the transformer sets 8192. -/
theorem otog_maxtokens_c6_counterexample :
    (transformOpenAIRequestToGemini (fun _ => false)
      { model := cs "gemini-1.5-flash",
        messages := [{ role := .user, content := .str (cs "hi") }],
        max_tokens := some 100,
        response_format := some (cs "json_object") }).generationConfig.maxOutputTokens
      = some 8192 ∧
    ¬ (transformOpenAIRequestToGemini (fun _ => false)
      { model := cs "gemini-1.5-flash",
        messages := [{ role := .user, content := .str (cs "hi") }],
        max_tokens := some 100,
        response_format := some (cs "json_object") }).generationConfig.maxOutputTokens
      = some 100 := by
  constructor <;> decide

theorem collectStep_snd (jsonOk : List Char → Bool)
    (acc : List Char × List GeContent) (m : OpenAIMessage) :
    (collectStep jsonOk acc m).2 = acc.2 ++ (contentEntry jsonOk m).toList := by
  unfold collectStep contentEntry
  cases hr : m.role
  · cases m.content <;> simp [hr]
  all_goals
    (simp only [hr]
     by_cases h : (msgParts jsonOk m).isEmpty <;> simp [h])

theorem collectStep_fst (jsonOk : List Char → Bool)
    (acc : List Char × List GeContent) (m : OpenAIMessage) :
    (collectStep jsonOk acc m).1 =
      match sysText m with
      | some s => joinStep acc.1 s
      | none => acc.1 := by
  unfold collectStep sysText joinStep
  cases hr : m.role
  · cases m.content <;> simp [hr]
  all_goals
    (simp only [hr]
     by_cases h : (msgParts jsonOk m).isEmpty <;> simp [h])

theorem collect_snd (jsonOk : List Char → Bool) (msgs : List OpenAIMessage) :
    ∀ acc, (msgs.foldl (collectStep jsonOk) acc).2 =
      acc.2 ++ msgs.filterMap (contentEntry jsonOk) := by
  induction msgs with
  | nil => intro acc; simp
  | cons m ms ih =>
    intro acc
    rw [List.foldl_cons, ih, collectStep_snd]
    cases h : contentEntry jsonOk m <;> simp [h, List.filterMap_cons]

theorem collect_fst (jsonOk : List Char → Bool) (msgs : List OpenAIMessage) :
    ∀ acc, (msgs.foldl (collectStep jsonOk) acc).1 =
      (msgs.filterMap sysText).foldl joinStep acc.1 := by
  induction msgs with
  | nil => intro acc; simp
  | cons m ms ih =>
    intro acc
    rw [List.foldl_cons, ih, collectStep_fst]
    cases h : sysText m <;> simp [h, List.filterMap_cons]

theorem qing_mem_sysPromptOf (req : OpenAIRequest) (u : List Char) :
    '请' ∈ sysPromptOf req u := by
  have h1 : '请' ∈ naturalOutputPrompt := by decide
  have h2 : '请' ∈ jsonPromptBase := by decide
  unfold sysPromptOf
  by_cases hj : isJsonReq req = true
  · simp only [hj]
    cases hm : req.max_tokens with
    | none =>
      by_cases hu : u.isEmpty <;> simp [hu, h2, List.mem_append]
    | some n =>
      by_cases h1000 : n ≤ 1000 <;> by_cases h500 : n ≤ 500 <;>
        by_cases hu : u.isEmpty <;> simp [hu, h1000, h500, h2, List.mem_append]
  · simp only [Bool.not_eq_true] at hj
    by_cases hu : u.isEmpty <;> simp [hj, hu, h1, List.mem_append]

/-- C7 (amended): non-system messages with a non-empty derived part list
become ordered `Content` entries with `assistant→model` and `user/tool→user`
(messages whose derived part list is empty are dropped); the system
instruction is always present, and its text is the newline-joined system
contents augmented with a fixed format-control prompt (the natural-output
prompt, or the JSON prompt with its length-control suffix when the request
is detected as a JSON request) — not the joined system contents alone. -/
theorem otog_system_contents_c7_amended (jsonOk : List Char → Bool)
    (req : OpenAIRequest) :
    (transformOpenAIRequestToGemini jsonOk req).contents =
      req.messages.filterMap (contentEntry jsonOk) ∧
    (transformOpenAIRequestToGemini jsonOk req).systemInstruction =
      some ⟨cs "user", [.text (sysPromptOf req (joinSystemTexts req.messages))]⟩ := by
  have hq : '请' ∈ sysPromptOf req (joinSystemTexts req.messages) :=
    qing_mem_sysPromptOf req _
  have hne : sysPromptOf req (joinSystemTexts req.messages) ≠ [] := by
    intro h
    rw [h] at hq
    exact (List.not_mem_nil _) hq
  have htr : jsTrim (sysPromptOf req (joinSystemTexts req.messages)) ≠ [] := by
    intro h
    have := (jsTrim_eq_nil_iff _).mp h '请' hq
    exact absurd this (by decide)
  have hfst : (req.messages.foldl (collectStep jsonOk) ([], [])).1 =
      joinSystemTexts req.messages := by
    rw [collect_fst]
    rfl
  have hsnd : (req.messages.foldl (collectStep jsonOk) ([], [])).2 =
      req.messages.filterMap (contentEntry jsonOk) := by
    rw [collect_snd]
    rfl
  have hcond : (!(sysPromptOf req (joinSystemTexts req.messages)).isEmpty &&
      !(jsTrim (sysPromptOf req (joinSystemTexts req.messages))).isEmpty) = true := by
    simp [List.isEmpty_iff, hne, htr]
  unfold transformOpenAIRequestToGemini
  simp only [hfst, hsnd, hcond, if_true]
  by_cases ht : req.tools.isEmpty
  · simp [ht]
  · cases htc : req.tool_choice with
    | none => simp [ht, htc]
    | some tc =>
      by_cases htt : toolChoiceTruthy (some tc) = true <;> simp [ht, htc, htt]

/-- C7 counterexample: with no system-role message the produced request
still carries a system instruction, and with one system message "S" the
system instruction is not "S" alone. -/
theorem otog_system_c7_counterexample :
    ((transformOpenAIRequestToGemini (fun _ => true)
      { model := cs "gemini-1.5-flash",
        messages := [{ role := .user, content := .str (cs "hi") }] }).systemInstruction).isSome
      = true ∧
    ¬ (transformOpenAIRequestToGemini (fun _ => true)
      { model := cs "gemini-1.5-flash",
        messages := [{ role := .system, content := .str (cs "S") },
                     { role := .user, content := .str (cs "hi") }] }).systemInstruction
      = some ⟨cs "user", [.text (cs "S")]⟩ := by
  constructor <;> decide

end OtoG

namespace GtoO

theorem containsSub_ws_head (s n : List Char) (d : Char)
    (hws : ∀ c ∈ s, isJsWs c) (hd : isJsWs d = false) :
    containsSub s (d :: n) = false := by
  induction s with
  | nil => simp [containsSub]
  | cons c t ih =>
    have hc : isJsWs c = true := hws c (by simp)
    have ht : ∀ x ∈ t, isJsWs x := fun x hx => hws x (by simp [hx])
    simp only [containsSub, Bool.or_eq_false_iff]
    refine ⟨?_, ih ht⟩
    simp only [List.isPrefixOf, Bool.and_eq_false_iff]
    left
    simp only [beq_eq_false_iff_ne, ne_eq]
    intro hdc
    rw [hdc, hc] at hd
    simp at hd

theorem find?_isPrefixOf_ws_none (alts : List (List Char)) (s : List Char)
    (halts : alts.all altHeadSolid = true) (hws : ∀ c ∈ s, isJsWs c) :
    alts.find? (fun a => a.isPrefixOf s) = none := by
  rw [List.find?_eq_none]
  intro a ha
  have hsolid := List.all_eq_true.mp halts a ha
  cases a with
  | nil => simp [altHeadSolid] at hsolid
  | cons c rest =>
    simp only [altHeadSolid, Bool.not_eq_true'] at hsolid
    cases s with
    | nil => simp [List.isPrefixOf]
    | cons d t =>
      have hd : isJsWs d = true := hws d (by simp)
      simp only [List.isPrefixOf, Bool.and_eq_true, beq_iff_eq, not_and]
      intro hcd
      rw [hcd, hd] at hsolid
      exact absurd hsolid (by simp)

theorem altDotMatcher_ws_none (alts : List (List Char))
    (halts : alts.all altHeadSolid = true) (t : List Char) (b : Bool)
    (hws : ∀ c ∈ t, isJsWs c) : altDotMatcher alts t b = none := by
  unfold altDotMatcher
  rw [find?_isPrefixOf_ws_none alts t halts hws]
  cases b <;> rfl

theorem boldMatcher_ws_none (keep : Bool) (t : List Char) (b : Bool)
    (hws : ∀ c ∈ t, isJsWs c) : boldMatcher keep t b = none := by
  unfold boldMatcher
  split
  · exfalso
    have h := hws '*' (by simp)
    exact absurd h (by decide)
  · rfl

/-- Replacing over whitespace-only text keeps it whitespace-only, as long
as the matcher only ever produces whitespace replacements and remainders
from whitespace input. -/
theorem rxReplaceAux_ws (m : RxMatcher)
    (hm : ∀ t b, (∀ c ∈ t, isJsWs c) →
      m t b = none ∨ ∃ repl lastC rest2, m t b = some (repl, lastC, rest2) ∧
        (∀ c ∈ repl, isJsWs c) ∧ (∀ c ∈ rest2, isJsWs c)) :
    ∀ fuel b s, (∀ c ∈ s, isJsWs c) →
      ∀ x ∈ rxReplaceAux m fuel b s, isJsWs x := by
  intro fuel
  induction fuel with
  | zero => intro b s hws; simpa [rxReplaceAux] using hws
  | succ n ih =>
    intro b s hws
    cases s with
    | nil => simp [rxReplaceAux]
    | cons c rest =>
      have hrest : ∀ x ∈ rest, isJsWs x := fun x hx => hws x (by simp [hx])
      rcases hm (c :: rest) b hws with hnone | ⟨repl, lastC, rest2, hsome, hr, hr2⟩
      · rw [rxReplaceAux]
        simp only [hnone]
        intro x hx
        rcases List.mem_cons.mp hx with h | h
        · exact h ▸ hws c (by simp)
        · exact ih (OtoG.isLineTerm c) rest hrest x h
      · rw [rxReplaceAux]
        simp only [hsome]
        intro x hx
        rcases List.mem_append.mp hx with h | h
        · exact hr x h
        · exact ih (OtoG.isLineTerm lastC) rest2 hr2 x h

/-- `blankLineMatcher` satisfies the whitespace-preservation side
condition of `rxReplaceAux_ws`. -/
theorem blankLineMatcher_ws (t : List Char) (b : Bool)
    (hws : ∀ c ∈ t, isJsWs c) :
    blankLineMatcher t b = none ∨
      ∃ repl lastC rest2, blankLineMatcher t b = some (repl, lastC, rest2) ∧
        (∀ c ∈ repl, isJsWs c) ∧ (∀ c ∈ rest2, isJsWs c) := by
  cases hm : blankLineMatcher t b with
  | none => exact Or.inl rfl
  | some v =>
    obtain ⟨repl, lastC, rest2⟩ := v
    refine Or.inr ⟨repl, lastC, rest2, rfl, ?_⟩
    unfold blankLineMatcher at hm
    split at hm
    · next rest =>
      have hrest : ∀ x ∈ rest, isJsWs x := fun x hx =>
        hws x (List.mem_cons_of_mem _ hx)
      simp only [] at hm
      split at hm
      · exact absurd hm (by simp)
      · rw [Option.some_inj, Prod.mk.injEq, Prod.mk.injEq] at hm
        obtain ⟨h1, _h2, h3⟩ := hm
        constructor
        · intro x hx
          rw [← h1] at hx
          simp only [List.mem_singleton] at hx
          rw [hx]
          decide
        · intro x hx
          rw [← h3] at hx
          rcases List.mem_append.mp hx with h | h
          · have ha := List.mem_reverse.mp h
            have hb := (List.takeWhile_sublist _).subset ha
            have hc := List.mem_reverse.mp hb
            exact hrest x ((List.takeWhile_sublist _).subset hc)
          · exact hrest x ((List.drop_sublist _ _).subset h)
    · exact absurd hm (by simp)

theorem jsTrim_eq_nil_of_ws (s : List Char) (hws : ∀ c ∈ s, isJsWs c) :
    jsTrim s = [] := (jsTrim_eq_nil_iff s).mpr hws

/-- A whitespace-only string passes through `filterThinkingContent`
unchanged (the filtered text trims to nothing, so the 30% guard returns
the original). -/
theorem filterThinkingContent_ws (content : List Char)
    (hws : ∀ c ∈ content, isJsWs c) :
    filterThinkingContent content = content := by
  unfold filterThinkingContent
  cases hc : content with
  | nil => rfl
  | cons c0 t0 =>
    rw [← hc]
    have hcne : content.isEmpty = false := by rw [hc]; rfl
    rw [if_neg (by simp [hcne])]
    have h1 : ∀ x ∈ rxReplace (altDotMatcher filterAlts) content, isJsWs x := by
      refine rxReplaceAux_ws _ ?_ _ _ _ hws
      intro t b hwt
      exact Or.inl (altDotMatcher_ws_none filterAlts (by decide) t b hwt)
    have h2 : ∀ x ∈ rxReplace (boldMatcher false)
        (rxReplace (altDotMatcher filterAlts) content), isJsWs x := by
      refine rxReplaceAux_ws _ ?_ _ _ _ h1
      intro t b hwt
      exact Or.inl (boldMatcher_ws_none false t b hwt)
    have h3 : ∀ x ∈ rxReplace blankLineMatcher (rxReplace (boldMatcher false)
        (rxReplace (altDotMatcher filterAlts) content)), isJsWs x := by
      refine rxReplaceAux_ws _ ?_ _ _ _ h2
      intro t b hwt
      exact blankLineMatcher_ws t b hwt
    have htrim : jsTrim (rxReplace blankLineMatcher (rxReplace (boldMatcher false)
        (rxReplace (altDotMatcher filterAlts) content))) = [] :=
      jsTrim_eq_nil_of_ws _ h3
    simp only [htrim, List.length_nil, Nat.mul_zero]
    rw [if_pos]
    rw [hc]
    simp

/-- With whitespace-only combined and thinking content and no tool calls,
the transformer always lands on the fixed generic apology (the
finish-reason-specific block is skipped since the apology's trim is
non-empty). -/
theorem transform_eq_of_ws (uuid : Nat → List Char) (cand : GeminiCandidate)
    (idx : Nat) (et : Bool) (C T : List Char)
    (hr : collectParts uuid (partsOf cand) = (C, T, ([] : List RespToolCall)))
    (hc : ∀ c ∈ C, isJsWs c) (ht : ∀ c ∈ T, isJsWs c) :
    transformCandidateToChoice uuid cand idx et =
      ⟨idx, ⟨cs "assistant", genericApology, none⟩,
        mapFinishReasonToOpenAI cand.finishReason⟩ := by
  have hT0 : jsTrim T = [] := (jsTrim_eq_nil_iff T).mpr ht
  have hC0 : jsTrim C = [] := (jsTrim_eq_nil_iff C).mpr hc
  have e1 : stage1 et C T = C := by
    have hstar : containsSub C (cs "**") = false := by
      have hsplit : cs "**" = '*' :: cs "*" := by decide
      rw [hsplit]
      exact containsSub_ws_head C (cs "*") '*' hc (by decide)
    have hInline : hasInlineThinking C = false := by
      unfold hasInlineThinking
      rw [hstar]
      rfl
    unfold stage1
    rw [hT0, hInline]
    cases et
    · simp [filterThinkingContent_ws C hc]
    · simp
  have e2 : stage2 et T C = genericApology := by
    unfold stage2
    rw [hC0, hT0]
    rfl
  have e3 : stage3 et genericApology = genericApology := by
    cases et
    · decide
    · rfl
  have e4 : stage4 et cand.finishReason T ([] : List RespToolCall)
      genericApology = genericApology := by
    unfold stage4
    rw [show (jsTrim genericApology).isEmpty = false from by decide]
    rfl
  unfold transformCandidateToChoice
  rw [hr]
  dsimp only
  rw [e1, e2, e3, e4]
  rfl

/-- C1 (amended): for a candidate whose accumulated final-answer text and
thinking text are empty or whitespace-only and which yields no tool calls,
the message content is always the one fixed generic apology — non-empty
and never absent, but its wording does not depend on the candidate's
finish reason (the finish-reason-specific block is unreachable here: the
generic apology is assigned first and trims non-empty). -/
theorem gtoo_empty_candidate_apology_c1_amended
    (uuid : Nat → List Char) (cand : GeminiCandidate) (idx : Nat) (et : Bool)
    (hc : ∀ c ∈ (collectParts uuid (partsOf cand)).1, isJsWs c)
    (ht : ∀ c ∈ (collectParts uuid (partsOf cand)).2.1, isJsWs c)
    (htc : (collectParts uuid (partsOf cand)).2.2 = []) :
    (transformCandidateToChoice uuid cand idx et).message.content =
      genericApology ∧
    (transformCandidateToChoice uuid cand idx et).message.tool_calls = none ∧
    genericApology ≠ [] := by
  rcases hr : collectParts uuid (partsOf cand) with ⟨C, T, TC⟩
  rw [hr] at hc ht htc
  have htc' : TC = [] := htc
  subst htc'
  have hc' : ∀ c ∈ C, isJsWs c := hc
  have ht' : ∀ c ∈ T, isJsWs c := ht
  rw [transform_eq_of_ws uuid cand idx et C T hr hc' ht']
  exact ⟨rfl, rfl, by decide⟩

theorem gtoo_empty_candidate_apology_c1_witness :
    (transformCandidateToChoice (fun _ => [])
        ⟨some ⟨cs "model", []⟩, some FinishReason.SAFETY⟩ 0 true).message.content =
      genericApology ∧
    (transformCandidateToChoice (fun _ => [])
        ⟨some ⟨cs "model", []⟩, some FinishReason.SAFETY⟩ 0
        true).message.tool_calls = none ∧
    genericApology ≠ [] :=
  gtoo_empty_candidate_apology_c1_amended (fun _ => [])
    ⟨some ⟨cs "model", []⟩, some FinishReason.SAFETY⟩ 0 true
    (by decide) (by decide) (by decide)

/-- C1 (counterexample to the frozen claim): a SAFETY-blocked candidate
with no content yields the same generic apology as a candidate with no
finish reason at all — not the distinct safety wording the claim
requires. -/
theorem gtoo_apology_c1_counterexample :
    (transformCandidateToChoice (fun _ => [])
        ⟨some ⟨cs "model", []⟩, some FinishReason.SAFETY⟩ 0 true).message.content =
      (transformCandidateToChoice (fun _ => [])
        ⟨some ⟨cs "model", []⟩, none⟩ 0 true).message.content ∧
    ¬ (transformCandidateToChoice (fun _ => [])
        ⟨some ⟨cs "model", []⟩, some FinishReason.SAFETY⟩ 0
        true).message.content = safetyApology := by
  decide

/-- C3 (amended): the choice's finish_reason is always the direct mapping
of the backend finish reason — tool-call presence never forces it; it
equals "tool_calls" exactly for MALFORMED_FUNCTION_CALL. -/
theorem gtoo_finish_reason_c3_amended (uuid : Nat → List Char)
    (cand : GeminiCandidate) (idx : Nat) (et : Bool) :
    (transformCandidateToChoice uuid cand idx et).finish_reason =
      mapFinishReasonToOpenAI cand.finishReason ∧
    ((transformCandidateToChoice uuid cand idx et).finish_reason =
        cs "tool_calls" ↔
      cand.finishReason = some FinishReason.MALFORMED_FUNCTION_CALL) := by
  refine ⟨rfl, ?_⟩
  have hproj : (transformCandidateToChoice uuid cand idx et).finish_reason =
      mapFinishReasonToOpenAI cand.finishReason := rfl
  rw [hproj]
  rcases hfr : cand.finishReason with _ | r
  · decide
  · cases r <;> decide

/-- C3 (counterexample to the frozen claim): a candidate with one function
call and reported finish reason STOP produces tool calls but finish_reason
"stop", not "tool_calls". -/
theorem gtoo_finish_reason_c3_counterexample :
    (transformCandidateToChoice (fun _ => cs "u")
        ⟨some ⟨cs "model", [⟨[], false, some ⟨cs "f", cs "\x7b\x7d"⟩⟩]⟩,
          some FinishReason.STOP⟩ 0 true).message.tool_calls.isSome = true ∧
    (transformCandidateToChoice (fun _ => cs "u")
        ⟨some ⟨cs "model", [⟨[], false, some ⟨cs "f", cs "\x7b\x7d"⟩⟩]⟩,
          some FinishReason.STOP⟩ 0 true).finish_reason = cs "stop" ∧
    ¬ (transformCandidateToChoice (fun _ => cs "u")
        ⟨some ⟨cs "model", [⟨[], false, some ⟨cs "f", cs "\x7b\x7d"⟩⟩]⟩,
          some FinishReason.STOP⟩ 0 true).finish_reason = cs "tool_calls" := by
  decide

/-- C8 (amended): with reasoning disabled, a thought part plus an answer
part yields the answer text alone — but post-processed: markdown-cleaned
unless the answer looks like JSON — with the thinking text dropped and no
think delimiter (given the answer and its cleaned form carry none). -/
theorem gtoo_reasoning_disabled_c8_amended (uuid : Nat → List Char)
    (idx : Nat) (rsn : Option FinishReason) (tT aT : List Char)
    (h1 : ¬ jsTrim tT = []) (h2 : ¬ jsTrim aT = [])
    (h3 : containsSub aT (cs "<think>") = false)
    (h4 : ¬ jsTrim (if isJsonResponse aT then aT
        else cleanMarkdownFormatting aT) = [])
    (h5 : containsSub (cleanMarkdownFormatting aT) (cs "<think>") = false) :
    (transformCandidateToChoice uuid
        ⟨some ⟨cs "model", [⟨tT, true, none⟩, ⟨aT, false, none⟩]⟩, rsn⟩
        idx false).message.content =
      (if isJsonResponse aT then aT else cleanMarkdownFormatting aT) ∧
    (transformCandidateToChoice uuid
        ⟨some ⟨cs "model", [⟨tT, true, none⟩, ⟨aT, false, none⟩]⟩, rsn⟩
        idx false).message.tool_calls = none ∧
    containsSub (transformCandidateToChoice uuid
        ⟨some ⟨cs "model", [⟨tT, true, none⟩, ⟨aT, false, none⟩]⟩, rsn⟩
        idx false).message.content (cs "<think>") = false := by
  have htT : tT.isEmpty = false := by
    cases htt : tT with
    | nil => exact absurd (by rw [htt]; rfl) h1
    | cons a l => rfl
  have haT : aT.isEmpty = false := by
    cases hat : aT with
    | nil => exact absurd (by rw [hat]; rfl) h2
    | cons a l => rfl
  have htTne : ¬ tT = [] := by
    intro h
    exact h1 (by rw [h]; rfl)
  have haTne : ¬ aT = [] := by
    intro h
    exact h2 (by rw [h]; rfl)
  have hcol : collectParts uuid [⟨tT, true, none⟩, ⟨aT, false, none⟩] =
      (aT, tT, ([] : List RespToolCall)) := by
    unfold collectParts
    simp [htTne, haTne]
  have h1' : (jsTrim tT).isEmpty = false := by
    cases hk : jsTrim tT with
    | nil => exact absurd hk h1
    | cons a l => rfl
  have h2' : (jsTrim aT).isEmpty = false := by
    cases hk : jsTrim aT with
    | nil => exact absurd hk h2
    | cons a l => rfl
  have h4' : (jsTrim (if isJsonResponse aT then aT
      else cleanMarkdownFormatting aT)).isEmpty = false := by
    cases hk : jsTrim (if isJsonResponse aT then aT
        else cleanMarkdownFormatting aT) with
    | nil => exact absurd hk h4
    | cons a l => rfl
  have e1 : stage1 false aT tT = aT := by
    unfold stage1
    rw [h1']
    rfl
  have e2 : stage2 false tT aT = aT := by
    unfold stage2
    rw [h2']
    rfl
  have e3 : stage3 false aT = (if isJsonResponse aT then aT
      else cleanMarkdownFormatting aT) := by
    unfold stage3
    rw [haT, h3]
    cases hj : isJsonResponse aT <;> simp [hj]
  have e4 : stage4 false rsn tT ([] : List RespToolCall)
      (if isJsonResponse aT then aT else cleanMarkdownFormatting aT) =
      (if isJsonResponse aT then aT else cleanMarkdownFormatting aT) := by
    unfold stage4
    rw [h4']
    rfl
  have key : transformCandidateToChoice uuid
      ⟨some ⟨cs "model", [⟨tT, true, none⟩, ⟨aT, false, none⟩]⟩, rsn⟩
      idx false =
      ⟨idx, ⟨cs "assistant",
        (if isJsonResponse aT then aT else cleanMarkdownFormatting aT), none⟩,
        mapFinishReasonToOpenAI rsn⟩ := by
    unfold transformCandidateToChoice
    rw [show partsOf ⟨some ⟨cs "model", [⟨tT, true, none⟩, ⟨aT, false, none⟩]⟩,
        rsn⟩ = [⟨tT, true, none⟩, ⟨aT, false, none⟩] from rfl, hcol]
    dsimp only
    rw [e1, e2, e3, e4]
    rfl
  rw [key]
  refine ⟨rfl, rfl, ?_⟩
  cases hj : isJsonResponse aT <;> simp [hj, h3, h5]

theorem gtoo_reasoning_disabled_c8_witness :
    (transformCandidateToChoice (fun _ => [])
        ⟨some ⟨cs "model", [⟨cs "Reasoning.", true, none⟩,
          ⟨cs "你好。", false, none⟩]⟩, some FinishReason.STOP⟩
        0 false).message.content =
      (if isJsonResponse (cs "你好。") then cs "你好。"
       else cleanMarkdownFormatting (cs "你好。")) ∧
    (transformCandidateToChoice (fun _ => [])
        ⟨some ⟨cs "model", [⟨cs "Reasoning.", true, none⟩,
          ⟨cs "你好。", false, none⟩]⟩, some FinishReason.STOP⟩
        0 false).message.tool_calls = none ∧
    containsSub (transformCandidateToChoice (fun _ => [])
        ⟨some ⟨cs "model", [⟨cs "Reasoning.", true, none⟩,
          ⟨cs "你好。", false, none⟩]⟩, some FinishReason.STOP⟩
        0 false).message.content (cs "<think>") = false :=
  gtoo_reasoning_disabled_c8_amended (fun _ => []) 0 (some FinishReason.STOP)
    (cs "Reasoning.") (cs "你好。")
    (by decide) (by decide) (by decide) (by decide) (by decide)

/-- C8 (counterexample to the frozen claim): with reasoning disabled, a
markdown-formatted answer part is mutated by the cleaning pass, so the
emitted content is not equal to the answer-part text. -/
theorem gtoo_reasoning_disabled_c8_counterexample :
    (transformCandidateToChoice (fun _ => [])
        ⟨some ⟨cs "model", [⟨cs "Reasoning text.", true, none⟩,
          ⟨cs "**你好。**", false, none⟩]⟩, some FinishReason.STOP⟩
        0 false).message.content = cs "你好。" ∧
    ¬ (transformCandidateToChoice (fun _ => [])
        ⟨some ⟨cs "model", [⟨cs "Reasoning text.", true, none⟩,
          ⟨cs "**你好。**", false, none⟩]⟩, some FinishReason.STOP⟩
        0 false).message.content = cs "**你好。**" := by
  decide

end GtoO
